import Mathlib

/-!
Verification of the CFI type-metadata identifier encoder
(`compiler/rustc_symbol_mangling/src/typeid.rs`,
`compiler/rustc_symbol_mangling/src/typeid/itanium_cxx_abi.rs`) and of the
thin-self-pointer helper (`compiler/rustc_mir_transform/src/rewrite_receiver.rs`).

The development is a shallow embedding: Rust strings are `List Char`, the
substitution dictionary (an insertion-ordered use of `FxHashMap<DictKey, usize>`
whose stored value is always the key's zero-based insertion position) is a
`List DictKey` whose index is the stored value, and the mutable `&mut String` /
`&mut FxHashMap` parameters become explicit state passing.  The type tree keeps
exactly the variants that are reachable after monomorphization; the variants on
which the source calls `bug!` (`ty::Alias`, `ty::Bound`, `ty::Error`,
`ty::CoroutineWitness`, `ty::Infer`, `ty::Placeholder`, the unreachable region
and const kinds, and `cfi_encoding` attributes without a string value) are
outside the modelled input space, so every encoder function is total.
-/

set_option maxHeartbeats 1000000

namespace Cfi

/-- Rust `String` / `&str` contents, modelled as a character list. -/
abbrev Str := List Char

/-! ### Base-N numerals (component A)

`rustc_data_structures::base_n` is not part of the source corpus, so it is
modelled from the spec: digits `0-9`, then lowercase letters, then uppercase
letters; base 36 uses `0-9a-z`, base 62 uses `0-9a-zA-Z`. -/

/-- Modelled from the spec: the digit characters of `rustc_data_structures::base_n`
(`0-9`, then lowercase `a-z`, then uppercase `A-Z`). -/
def baseNDigit (d : Nat) : Char :=
  if d < 10 then Char.ofNat (48 + d)
  else if d < 36 then Char.ofNat (87 + d)
  else Char.ofNat (29 + d)

/-- Modelled from the spec: most-significant-first base-`base` digits of `n`.
The first argument is fuel; `baseN` supplies enough for the recursion
`n ↦ n / base` to bottom out. -/
def baseNAux (base : Nat) : Nat → Nat → List Char → List Char
  | 0, _, acc => acc
  | fuel + 1, n, acc =>
    if n < base then baseNDigit n :: acc
    else baseNAux base fuel (n / base) (baseNDigit (n % base) :: acc)
  -- structural on the fuel; `baseN` passes fuel `n + 1`, which suffices since
  -- `n / base < n` whenever `base ≥ 2` and `n ≥ base`

/-- Modelled from the spec: `base_n::encode n base`. -/
def baseN (n base : Nat) : List Char := baseNAux base (n + 1) n []

/-- `to_disambiguator` from `itanium_cxx_abi.rs`: `"s_"` for 0, else
`"s" ++ base-62 of (n-1) ++ "_"`. -/
def to_disambiguator (num : Nat) : Str :=
  match num with
  | 0 => "s_".toList
  | n + 1 => 's' :: (baseN n 62 ++ "_".toList)

/-- `to_seq_id` from `itanium_cxx_abi.rs`: `""` for 0, else the uppercased
base-36 rendering of `n-1`. -/
def to_seq_id (num : Nat) : Str :=
  match num with
  | 0 => []
  | n + 1 => (baseN n 36).map Char.toUpper

/-! ### The type tree (input data model) -/

/-- `ty::IntTy`. -/
inductive IntTy
  | i8 | i16 | i32 | i64 | i128 | isize
deriving DecidableEq

/-- `ty::UintTy`. -/
inductive UintTy
  | u8 | u16 | u32 | u64 | u128 | usize
deriving DecidableEq

/-- `ty::FloatTy`. -/
inductive FloatTy
  | f16 | f32 | f64 | f128
deriving DecidableEq

/-- `ty::RegionKind`, restricted to the kinds reachable in `encode_region`
(`ReBound`, `ReEarlyParam`, `ReErased`); the remaining kinds hit `bug!`.
`ReBound` carries the De Bruijn index of the binder and the variable index;
`ReEarlyParam` carries an index standing for the early-bound parameter data,
which the encoding ignores but dictionary-key equality observes. -/
inductive Region
  | bound (debruijn : Nat) (var : Nat)
  | earlyParam (index : Nat)
  | erased
deriving DecidableEq

/-- Namespace tags of `DefPathData` reachable in `encode_ty_name`; the other
variants (`CrateRoot`, `Use`, `GlobalAsm`, `MacroNs`, `LifetimeNs`, `AnonAdt`)
hit `bug!`. -/
inductive DefTag
  | impl | foreignMod | typeNs | valueNs | closure | ctor | anonConst | opaqueTy
deriving DecidableEq

/-- The tag letter emitted for a `DefPathData` variant. -/
def DefTag.letter : DefTag → Char
  | .impl => 'I'
  | .foreignMod => 'F'
  | .typeNs => 't'
  | .valueNs => 'v'
  | .closure => 'C'
  | .ctor => 'c'
  | .anonConst => 'k'
  | .opaqueTy => 'i'

/-- One disambiguated component of a def-path.  The rendered name
(`disambiguated_data.data.to_string()`) is carried explicitly as a nonempty
character list (head plus tail); the source `bug!`s on empty names, so the
embedding keeps them nonempty by construction. -/
structure PathComp where
  tag : DefTag
  disambiguator : Nat
  nameHead : Char
  nameTail : Str
deriving DecidableEq

/-- The data `encode_ty_name` reads off `tcx` for a `DefId`: the def-path
components (root first), the stable crate id and the crate name. -/
structure NameData where
  crateId : Nat
  crateName : Str
  comps : List PathComp
deriving DecidableEq

/-- A `#[cfi_encoding = "…"]` attribute with its span and string value.
(The source `bug!`s when the attribute has no string value, so the value is
always present here.) -/
structure CfiAttr where
  span : Nat
  value : Str
deriving DecidableEq

/-- What `encode_ty` reads off an `AdtDef`: its path data, its unscoped
`item_name`, its `cfi_encoding` attribute if any, and whether it is `repr(C)`. -/
structure AdtData where
  name : NameData
  itemName : Str
  cfiEncoding : Option CfiAttr
  reprC : Bool
deriving DecidableEq

/-- What `encode_ty` reads off a `ty::Foreign` def-id. -/
structure ForeignData where
  itemName : Str
  cfiEncoding : Option CfiAttr
deriving DecidableEq

/-- `rustc_target::spec::abi::Abi`, restricted to what `encode_fnsig`
distinguishes: `Abi::C { unwind }` versus everything else. -/
inductive Abi
  | c (unwind : Bool)
  | rust
  | rustCold
deriving DecidableEq

/-- `rustc_target::abi::call::Conv`, restricted to what `typeid_for_fnabi`
distinguishes: `Conv::C` versus everything else. -/
inductive Conv
  | c
  | rust
  | rustCold
deriving DecidableEq

/-- `ty::Dyn` / `ty::DynStar`. -/
inductive DynKind
  | dyn | dynStar
deriving DecidableEq

mutual

/-- The monomorphic type tree (`ty::TyKind`), restricted to the variants
reachable in `encode_ty`.  Mutability is a `Bool` (`true` = `hir::Mutability::Mut`).
`array` carries the length already evaluated to a target usize
(`len.eval_target_usize` happens at the use site in the source).
`coroutineClosure` and `coroutine` carry the number of parent generic args
(`args.as_coroutine*().parent_args()` is `args.take nparent`). -/
inductive Ty
  | bool
  | char
  | str
  | never
  | int (ity : IntTy)
  | uint (uty : UintTy)
  | float (fty : FloatTy)
  | tuple (tys : List Ty)
  | array (elem : Ty) (len : Nat)
  | slice (elem : Ty)
  | adt (adtDef : AdtData) (args : List GenericArg)
  | foreign (fDef : ForeignData)
  | ref (region : Region) (pointee : Ty) (mutbl : Bool)
  | rawPtr (pointee : Ty) (mutbl : Bool)
  | fnPtr (sig : FnSig)
  | fnDef (nm : NameData) (args : List GenericArg)
  | closure (nm : NameData) (args : List GenericArg)
  | coroutineClosure (nm : NameData) (args : List GenericArg) (nparent : Nat)
  | coroutine (nm : NameData) (args : List GenericArg) (nparent : Nat)
  | dynamic (preds : List ExistentialPredicate) (region : Region) (kind : DynKind)
  | param

/-- `ty::GenericArg`. -/
inductive GenericArg
  | lifetime (r : Region)
  | type (t : Ty)
  | const (c : Const)

/-- `ty::Const`, restricted to the kinds reachable in `encode_const`:
a const parameter (carrying its type), or a concrete value.  Concrete values
are restricted to the supported types — signed ints, unsigned ints, bool —
paired with the raw evaluated bits (`c.eval_bits`); other value types hit
`bug!`. -/
inductive Const
  | param (ty : Ty)
  | intVal (ity : IntTy) (bits : Nat)
  | uintVal (uty : UintTy) (bits : Nat)
  | boolVal (b : Bool)

/-- `ty::ExistentialPredicate` (binders already skipped, as in
`predicate.as_ref().skip_binder()`). -/
inductive ExistentialPredicate
  | trait (nm : NameData) (args : List GenericArg)
  | projection (nm : NameData) (args : List GenericArg) (term : Term)
  | autoTrait (nm : NameData)

/-- `ty::Term` of a projection predicate. -/
inductive Term
  | ty (t : Ty)
  | const (c : Const)

/-- `ty::FnSig`: inputs, output, c-variadic flag, ABI. -/
inductive FnSig
  | mk (inputs : List Ty) (output : Ty) (cVariadic : Bool) (abi : Abi)

end

mutual

def decEqTy : (a : Ty) → (b : Ty) → Decidable (a = b)
  | .bool, .bool => isTrue rfl
  | .char, .char => isTrue rfl
  | .str, .str => isTrue rfl
  | .never, .never => isTrue rfl
  | .int i, .int i' =>
    match decEq i i' with
    | isTrue h => isTrue (by rw [h])
    | isFalse h => isFalse (by intro hh; cases hh; exact h rfl)
  | .uint u, .uint u' =>
    match decEq u u' with
    | isTrue h => isTrue (by rw [h])
    | isFalse h => isFalse (by intro hh; cases hh; exact h rfl)
  | .float f, .float f' =>
    match decEq f f' with
    | isTrue h => isTrue (by rw [h])
    | isFalse h => isFalse (by intro hh; cases hh; exact h rfl)
  | .tuple l, .tuple l' =>
    match decEqTyList l l' with
    | isTrue h => isTrue (by rw [h])
    | isFalse h => isFalse (by intro hh; cases hh; exact h rfl)
  | .array e n, .array e' n' =>
    match decEqTy e e', decEq n n' with
    | isTrue h1, isTrue h2 => isTrue (by rw [h1, h2])
    | isFalse h1, _ => isFalse (by intro hh; cases hh; exact h1 rfl)
    | _, isFalse h2 => isFalse (by intro hh; cases hh; exact h2 rfl)
  | .slice e, .slice e' =>
    match decEqTy e e' with
    | isTrue h => isTrue (by rw [h])
    | isFalse h => isFalse (by intro hh; cases hh; exact h rfl)
  | .adt d args, .adt d' args' =>
    match decEq d d', decEqArgs args args' with
    | isTrue h1, isTrue h2 => isTrue (by rw [h1, h2])
    | isFalse h1, _ => isFalse (by intro hh; cases hh; exact h1 rfl)
    | _, isFalse h2 => isFalse (by intro hh; cases hh; exact h2 rfl)
  | .foreign d, .foreign d' =>
    match decEq d d' with
    | isTrue h => isTrue (by rw [h])
    | isFalse h => isFalse (by intro hh; cases hh; exact h rfl)
  | .ref r p m, .ref r' p' m' =>
    match decEq r r', decEqTy p p', decEq m m' with
    | isTrue h1, isTrue h2, isTrue h3 => isTrue (by rw [h1, h2, h3])
    | isFalse h1, _, _ => isFalse (by intro hh; cases hh; exact h1 rfl)
    | _, isFalse h2, _ => isFalse (by intro hh; cases hh; exact h2 rfl)
    | _, _, isFalse h3 => isFalse (by intro hh; cases hh; exact h3 rfl)
  | .rawPtr p m, .rawPtr p' m' =>
    match decEqTy p p', decEq m m' with
    | isTrue h1, isTrue h2 => isTrue (by rw [h1, h2])
    | isFalse h1, _ => isFalse (by intro hh; cases hh; exact h1 rfl)
    | _, isFalse h2 => isFalse (by intro hh; cases hh; exact h2 rfl)
  | .fnPtr s, .fnPtr s' =>
    match decEqSig s s' with
    | isTrue h => isTrue (by rw [h])
    | isFalse h => isFalse (by intro hh; cases hh; exact h rfl)
  | .fnDef n args, .fnDef n' args' =>
    match decEq n n', decEqArgs args args' with
    | isTrue h1, isTrue h2 => isTrue (by rw [h1, h2])
    | isFalse h1, _ => isFalse (by intro hh; cases hh; exact h1 rfl)
    | _, isFalse h2 => isFalse (by intro hh; cases hh; exact h2 rfl)
  | .closure n args, .closure n' args' =>
    match decEq n n', decEqArgs args args' with
    | isTrue h1, isTrue h2 => isTrue (by rw [h1, h2])
    | isFalse h1, _ => isFalse (by intro hh; cases hh; exact h1 rfl)
    | _, isFalse h2 => isFalse (by intro hh; cases hh; exact h2 rfl)
  | .coroutineClosure n args k, .coroutineClosure n' args' k' =>
    match decEq n n', decEqArgs args args', decEq k k' with
    | isTrue h1, isTrue h2, isTrue h3 => isTrue (by rw [h1, h2, h3])
    | isFalse h1, _, _ => isFalse (by intro hh; cases hh; exact h1 rfl)
    | _, isFalse h2, _ => isFalse (by intro hh; cases hh; exact h2 rfl)
    | _, _, isFalse h3 => isFalse (by intro hh; cases hh; exact h3 rfl)
  | .coroutine n args k, .coroutine n' args' k' =>
    match decEq n n', decEqArgs args args', decEq k k' with
    | isTrue h1, isTrue h2, isTrue h3 => isTrue (by rw [h1, h2, h3])
    | isFalse h1, _, _ => isFalse (by intro hh; cases hh; exact h1 rfl)
    | _, isFalse h2, _ => isFalse (by intro hh; cases hh; exact h2 rfl)
    | _, _, isFalse h3 => isFalse (by intro hh; cases hh; exact h3 rfl)
  | .dynamic ps r k, .dynamic ps' r' k' =>
    match decEqPreds ps ps', decEq r r', decEq k k' with
    | isTrue h1, isTrue h2, isTrue h3 => isTrue (by rw [h1, h2, h3])
    | isFalse h1, _, _ => isFalse (by intro hh; cases hh; exact h1 rfl)
    | _, isFalse h2, _ => isFalse (by intro hh; cases hh; exact h2 rfl)
    | _, _, isFalse h3 => isFalse (by intro hh; cases hh; exact h3 rfl)
  | .param, .param => isTrue rfl
  | .bool, .char | .bool, .str | .bool, .never | .bool, .int _ | .bool, .uint _
  | .bool, .float _ | .bool, .tuple _ | .bool, .array _ _ | .bool, .slice _
  | .bool, .adt _ _ | .bool, .foreign _ | .bool, .ref _ _ _ | .bool, .rawPtr _ _
  | .bool, .fnPtr _ | .bool, .fnDef _ _ | .bool, .closure _ _
  | .bool, .coroutineClosure _ _ _ | .bool, .coroutine _ _ _ | .bool, .dynamic _ _ _
  | .bool, .param
  | .char, .bool | .char, .str | .char, .never | .char, .int _ | .char, .uint _
  | .char, .float _ | .char, .tuple _ | .char, .array _ _ | .char, .slice _
  | .char, .adt _ _ | .char, .foreign _ | .char, .ref _ _ _ | .char, .rawPtr _ _
  | .char, .fnPtr _ | .char, .fnDef _ _ | .char, .closure _ _
  | .char, .coroutineClosure _ _ _ | .char, .coroutine _ _ _ | .char, .dynamic _ _ _
  | .char, .param
  | .str, .bool | .str, .char | .str, .never | .str, .int _ | .str, .uint _
  | .str, .float _ | .str, .tuple _ | .str, .array _ _ | .str, .slice _
  | .str, .adt _ _ | .str, .foreign _ | .str, .ref _ _ _ | .str, .rawPtr _ _
  | .str, .fnPtr _ | .str, .fnDef _ _ | .str, .closure _ _
  | .str, .coroutineClosure _ _ _ | .str, .coroutine _ _ _ | .str, .dynamic _ _ _
  | .str, .param
  | .never, .bool | .never, .char | .never, .str | .never, .int _ | .never, .uint _
  | .never, .float _ | .never, .tuple _ | .never, .array _ _ | .never, .slice _
  | .never, .adt _ _ | .never, .foreign _ | .never, .ref _ _ _ | .never, .rawPtr _ _
  | .never, .fnPtr _ | .never, .fnDef _ _ | .never, .closure _ _
  | .never, .coroutineClosure _ _ _ | .never, .coroutine _ _ _ | .never, .dynamic _ _ _
  | .never, .param
  | .int _, .bool | .int _, .char | .int _, .str | .int _, .never | .int _, .uint _
  | .int _, .float _ | .int _, .tuple _ | .int _, .array _ _ | .int _, .slice _
  | .int _, .adt _ _ | .int _, .foreign _ | .int _, .ref _ _ _ | .int _, .rawPtr _ _
  | .int _, .fnPtr _ | .int _, .fnDef _ _ | .int _, .closure _ _
  | .int _, .coroutineClosure _ _ _ | .int _, .coroutine _ _ _ | .int _, .dynamic _ _ _
  | .int _, .param
  | .uint _, .bool | .uint _, .char | .uint _, .str | .uint _, .never | .uint _, .int _
  | .uint _, .float _ | .uint _, .tuple _ | .uint _, .array _ _ | .uint _, .slice _
  | .uint _, .adt _ _ | .uint _, .foreign _ | .uint _, .ref _ _ _ | .uint _, .rawPtr _ _
  | .uint _, .fnPtr _ | .uint _, .fnDef _ _ | .uint _, .closure _ _
  | .uint _, .coroutineClosure _ _ _ | .uint _, .coroutine _ _ _ | .uint _, .dynamic _ _ _
  | .uint _, .param
  | .float _, .bool | .float _, .char | .float _, .str | .float _, .never | .float _, .int _
  | .float _, .uint _ | .float _, .tuple _ | .float _, .array _ _ | .float _, .slice _
  | .float _, .adt _ _ | .float _, .foreign _ | .float _, .ref _ _ _ | .float _, .rawPtr _ _
  | .float _, .fnPtr _ | .float _, .fnDef _ _ | .float _, .closure _ _
  | .float _, .coroutineClosure _ _ _ | .float _, .coroutine _ _ _ | .float _, .dynamic _ _ _
  | .float _, .param
  | .tuple _, .bool | .tuple _, .char | .tuple _, .str | .tuple _, .never | .tuple _, .int _
  | .tuple _, .uint _ | .tuple _, .float _ | .tuple _, .array _ _ | .tuple _, .slice _
  | .tuple _, .adt _ _ | .tuple _, .foreign _ | .tuple _, .ref _ _ _ | .tuple _, .rawPtr _ _
  | .tuple _, .fnPtr _ | .tuple _, .fnDef _ _ | .tuple _, .closure _ _
  | .tuple _, .coroutineClosure _ _ _ | .tuple _, .coroutine _ _ _ | .tuple _, .dynamic _ _ _
  | .tuple _, .param
  | .array _ _, .bool | .array _ _, .char | .array _ _, .str | .array _ _, .never
  | .array _ _, .int _ | .array _ _, .uint _ | .array _ _, .float _ | .array _ _, .tuple _
  | .array _ _, .slice _ | .array _ _, .adt _ _ | .array _ _, .foreign _
  | .array _ _, .ref _ _ _ | .array _ _, .rawPtr _ _ | .array _ _, .fnPtr _
  | .array _ _, .fnDef _ _ | .array _ _, .closure _ _ | .array _ _, .coroutineClosure _ _ _
  | .array _ _, .coroutine _ _ _ | .array _ _, .dynamic _ _ _ | .array _ _, .param
  | .slice _, .bool | .slice _, .char | .slice _, .str | .slice _, .never | .slice _, .int _
  | .slice _, .uint _ | .slice _, .float _ | .slice _, .tuple _ | .slice _, .array _ _
  | .slice _, .adt _ _ | .slice _, .foreign _ | .slice _, .ref _ _ _ | .slice _, .rawPtr _ _
  | .slice _, .fnPtr _ | .slice _, .fnDef _ _ | .slice _, .closure _ _
  | .slice _, .coroutineClosure _ _ _ | .slice _, .coroutine _ _ _ | .slice _, .dynamic _ _ _
  | .slice _, .param
  | .adt _ _, .bool | .adt _ _, .char | .adt _ _, .str | .adt _ _, .never | .adt _ _, .int _
  | .adt _ _, .uint _ | .adt _ _, .float _ | .adt _ _, .tuple _ | .adt _ _, .array _ _
  | .adt _ _, .slice _ | .adt _ _, .foreign _ | .adt _ _, .ref _ _ _ | .adt _ _, .rawPtr _ _
  | .adt _ _, .fnPtr _ | .adt _ _, .fnDef _ _ | .adt _ _, .closure _ _
  | .adt _ _, .coroutineClosure _ _ _ | .adt _ _, .coroutine _ _ _ | .adt _ _, .dynamic _ _ _
  | .adt _ _, .param
  | .foreign _, .bool | .foreign _, .char | .foreign _, .str | .foreign _, .never
  | .foreign _, .int _ | .foreign _, .uint _ | .foreign _, .float _ | .foreign _, .tuple _
  | .foreign _, .array _ _ | .foreign _, .slice _ | .foreign _, .adt _ _
  | .foreign _, .ref _ _ _ | .foreign _, .rawPtr _ _ | .foreign _, .fnPtr _
  | .foreign _, .fnDef _ _ | .foreign _, .closure _ _ | .foreign _, .coroutineClosure _ _ _
  | .foreign _, .coroutine _ _ _ | .foreign _, .dynamic _ _ _ | .foreign _, .param
  | .ref _ _ _, .bool | .ref _ _ _, .char | .ref _ _ _, .str | .ref _ _ _, .never
  | .ref _ _ _, .int _ | .ref _ _ _, .uint _ | .ref _ _ _, .float _ | .ref _ _ _, .tuple _
  | .ref _ _ _, .array _ _ | .ref _ _ _, .slice _ | .ref _ _ _, .adt _ _
  | .ref _ _ _, .foreign _ | .ref _ _ _, .rawPtr _ _ | .ref _ _ _, .fnPtr _
  | .ref _ _ _, .fnDef _ _ | .ref _ _ _, .closure _ _ | .ref _ _ _, .coroutineClosure _ _ _
  | .ref _ _ _, .coroutine _ _ _ | .ref _ _ _, .dynamic _ _ _ | .ref _ _ _, .param
  | .rawPtr _ _, .bool | .rawPtr _ _, .char | .rawPtr _ _, .str | .rawPtr _ _, .never
  | .rawPtr _ _, .int _ | .rawPtr _ _, .uint _ | .rawPtr _ _, .float _ | .rawPtr _ _, .tuple _
  | .rawPtr _ _, .array _ _ | .rawPtr _ _, .slice _ | .rawPtr _ _, .adt _ _
  | .rawPtr _ _, .foreign _ | .rawPtr _ _, .ref _ _ _ | .rawPtr _ _, .fnPtr _
  | .rawPtr _ _, .fnDef _ _ | .rawPtr _ _, .closure _ _ | .rawPtr _ _, .coroutineClosure _ _ _
  | .rawPtr _ _, .coroutine _ _ _ | .rawPtr _ _, .dynamic _ _ _ | .rawPtr _ _, .param
  | .fnPtr _, .bool | .fnPtr _, .char | .fnPtr _, .str | .fnPtr _, .never
  | .fnPtr _, .int _ | .fnPtr _, .uint _ | .fnPtr _, .float _ | .fnPtr _, .tuple _
  | .fnPtr _, .array _ _ | .fnPtr _, .slice _ | .fnPtr _, .adt _ _ | .fnPtr _, .foreign _
  | .fnPtr _, .ref _ _ _ | .fnPtr _, .rawPtr _ _ | .fnPtr _, .fnDef _ _
  | .fnPtr _, .closure _ _ | .fnPtr _, .coroutineClosure _ _ _ | .fnPtr _, .coroutine _ _ _
  | .fnPtr _, .dynamic _ _ _ | .fnPtr _, .param
  | .fnDef _ _, .bool | .fnDef _ _, .char | .fnDef _ _, .str | .fnDef _ _, .never
  | .fnDef _ _, .int _ | .fnDef _ _, .uint _ | .fnDef _ _, .float _ | .fnDef _ _, .tuple _
  | .fnDef _ _, .array _ _ | .fnDef _ _, .slice _ | .fnDef _ _, .adt _ _
  | .fnDef _ _, .foreign _ | .fnDef _ _, .ref _ _ _ | .fnDef _ _, .rawPtr _ _
  | .fnDef _ _, .fnPtr _ | .fnDef _ _, .closure _ _ | .fnDef _ _, .coroutineClosure _ _ _
  | .fnDef _ _, .coroutine _ _ _ | .fnDef _ _, .dynamic _ _ _ | .fnDef _ _, .param
  | .closure _ _, .bool | .closure _ _, .char | .closure _ _, .str | .closure _ _, .never
  | .closure _ _, .int _ | .closure _ _, .uint _ | .closure _ _, .float _
  | .closure _ _, .tuple _ | .closure _ _, .array _ _ | .closure _ _, .slice _
  | .closure _ _, .adt _ _ | .closure _ _, .foreign _ | .closure _ _, .ref _ _ _
  | .closure _ _, .rawPtr _ _ | .closure _ _, .fnPtr _ | .closure _ _, .fnDef _ _
  | .closure _ _, .coroutineClosure _ _ _ | .closure _ _, .coroutine _ _ _
  | .closure _ _, .dynamic _ _ _ | .closure _ _, .param
  | .coroutineClosure _ _ _, .bool | .coroutineClosure _ _ _, .char
  | .coroutineClosure _ _ _, .str | .coroutineClosure _ _ _, .never
  | .coroutineClosure _ _ _, .int _ | .coroutineClosure _ _ _, .uint _
  | .coroutineClosure _ _ _, .float _ | .coroutineClosure _ _ _, .tuple _
  | .coroutineClosure _ _ _, .array _ _ | .coroutineClosure _ _ _, .slice _
  | .coroutineClosure _ _ _, .adt _ _ | .coroutineClosure _ _ _, .foreign _
  | .coroutineClosure _ _ _, .ref _ _ _ | .coroutineClosure _ _ _, .rawPtr _ _
  | .coroutineClosure _ _ _, .fnPtr _ | .coroutineClosure _ _ _, .fnDef _ _
  | .coroutineClosure _ _ _, .closure _ _ | .coroutineClosure _ _ _, .coroutine _ _ _
  | .coroutineClosure _ _ _, .dynamic _ _ _ | .coroutineClosure _ _ _, .param
  | .coroutine _ _ _, .bool | .coroutine _ _ _, .char | .coroutine _ _ _, .str
  | .coroutine _ _ _, .never | .coroutine _ _ _, .int _ | .coroutine _ _ _, .uint _
  | .coroutine _ _ _, .float _ | .coroutine _ _ _, .tuple _ | .coroutine _ _ _, .array _ _
  | .coroutine _ _ _, .slice _ | .coroutine _ _ _, .adt _ _ | .coroutine _ _ _, .foreign _
  | .coroutine _ _ _, .ref _ _ _ | .coroutine _ _ _, .rawPtr _ _ | .coroutine _ _ _, .fnPtr _
  | .coroutine _ _ _, .fnDef _ _ | .coroutine _ _ _, .closure _ _
  | .coroutine _ _ _, .coroutineClosure _ _ _ | .coroutine _ _ _, .dynamic _ _ _
  | .coroutine _ _ _, .param
  | .dynamic _ _ _, .bool | .dynamic _ _ _, .char | .dynamic _ _ _, .str
  | .dynamic _ _ _, .never | .dynamic _ _ _, .int _ | .dynamic _ _ _, .uint _
  | .dynamic _ _ _, .float _ | .dynamic _ _ _, .tuple _ | .dynamic _ _ _, .array _ _
  | .dynamic _ _ _, .slice _ | .dynamic _ _ _, .adt _ _ | .dynamic _ _ _, .foreign _
  | .dynamic _ _ _, .ref _ _ _ | .dynamic _ _ _, .rawPtr _ _ | .dynamic _ _ _, .fnPtr _
  | .dynamic _ _ _, .fnDef _ _ | .dynamic _ _ _, .closure _ _
  | .dynamic _ _ _, .coroutineClosure _ _ _ | .dynamic _ _ _, .coroutine _ _ _
  | .dynamic _ _ _, .param
  | .param, .bool | .param, .char | .param, .str | .param, .never | .param, .int _
  | .param, .uint _ | .param, .float _ | .param, .tuple _ | .param, .array _ _
  | .param, .slice _ | .param, .adt _ _ | .param, .foreign _ | .param, .ref _ _ _
  | .param, .rawPtr _ _ | .param, .fnPtr _ | .param, .fnDef _ _ | .param, .closure _ _
  | .param, .coroutineClosure _ _ _ | .param, .coroutine _ _ _ | .param, .dynamic _ _ _ =>
    isFalse (by intro hh; exact Ty.noConfusion hh)

def decEqTyList : (a : List Ty) → (b : List Ty) → Decidable (a = b)
  | [], [] => isTrue rfl
  | [], _ :: _ => isFalse (by intro hh; exact List.noConfusion hh)
  | _ :: _, [] => isFalse (by intro hh; exact List.noConfusion hh)
  | x :: xs, y :: ys =>
    match decEqTy x y, decEqTyList xs ys with
    | isTrue h1, isTrue h2 => isTrue (by rw [h1, h2])
    | isFalse h1, _ => isFalse (by intro hh; cases hh; exact h1 rfl)
    | _, isFalse h2 => isFalse (by intro hh; cases hh; exact h2 rfl)

def decEqArg : (a : GenericArg) → (b : GenericArg) → Decidable (a = b)
  | .lifetime r, .lifetime r' =>
    match decEq r r' with
    | isTrue h => isTrue (by rw [h])
    | isFalse h => isFalse (by intro hh; cases hh; exact h rfl)
  | .type t, .type t' =>
    match decEqTy t t' with
    | isTrue h => isTrue (by rw [h])
    | isFalse h => isFalse (by intro hh; cases hh; exact h rfl)
  | .const c, .const c' =>
    match decEqConst c c' with
    | isTrue h => isTrue (by rw [h])
    | isFalse h => isFalse (by intro hh; cases hh; exact h rfl)
  | .lifetime _, .type _ | .lifetime _, .const _
  | .type _, .lifetime _ | .type _, .const _
  | .const _, .lifetime _ | .const _, .type _ =>
    isFalse (by intro hh; exact GenericArg.noConfusion hh)

def decEqArgs : (a : List GenericArg) → (b : List GenericArg) → Decidable (a = b)
  | [], [] => isTrue rfl
  | [], _ :: _ => isFalse (by intro hh; exact List.noConfusion hh)
  | _ :: _, [] => isFalse (by intro hh; exact List.noConfusion hh)
  | x :: xs, y :: ys =>
    match decEqArg x y, decEqArgs xs ys with
    | isTrue h1, isTrue h2 => isTrue (by rw [h1, h2])
    | isFalse h1, _ => isFalse (by intro hh; cases hh; exact h1 rfl)
    | _, isFalse h2 => isFalse (by intro hh; cases hh; exact h2 rfl)

def decEqConst : (a : Const) → (b : Const) → Decidable (a = b)
  | .param t, .param t' =>
    match decEqTy t t' with
    | isTrue h => isTrue (by rw [h])
    | isFalse h => isFalse (by intro hh; cases hh; exact h rfl)
  | .intVal i n, .intVal i' n' =>
    match decEq i i', decEq n n' with
    | isTrue h1, isTrue h2 => isTrue (by rw [h1, h2])
    | isFalse h1, _ => isFalse (by intro hh; cases hh; exact h1 rfl)
    | _, isFalse h2 => isFalse (by intro hh; cases hh; exact h2 rfl)
  | .uintVal u n, .uintVal u' n' =>
    match decEq u u', decEq n n' with
    | isTrue h1, isTrue h2 => isTrue (by rw [h1, h2])
    | isFalse h1, _ => isFalse (by intro hh; cases hh; exact h1 rfl)
    | _, isFalse h2 => isFalse (by intro hh; cases hh; exact h2 rfl)
  | .boolVal b, .boolVal b' =>
    match decEq b b' with
    | isTrue h => isTrue (by rw [h])
    | isFalse h => isFalse (by intro hh; cases hh; exact h rfl)
  | .param _, .intVal _ _ | .param _, .uintVal _ _ | .param _, .boolVal _
  | .intVal _ _, .param _ | .intVal _ _, .uintVal _ _ | .intVal _ _, .boolVal _
  | .uintVal _ _, .param _ | .uintVal _ _, .intVal _ _ | .uintVal _ _, .boolVal _
  | .boolVal _, .param _ | .boolVal _, .intVal _ _ | .boolVal _, .uintVal _ _ =>
    isFalse (by intro hh; exact Const.noConfusion hh)

def decEqPred : (a : ExistentialPredicate) → (b : ExistentialPredicate) → Decidable (a = b)
  | .trait n args, .trait n' args' =>
    match decEq n n', decEqArgs args args' with
    | isTrue h1, isTrue h2 => isTrue (by rw [h1, h2])
    | isFalse h1, _ => isFalse (by intro hh; cases hh; exact h1 rfl)
    | _, isFalse h2 => isFalse (by intro hh; cases hh; exact h2 rfl)
  | .projection n args t, .projection n' args' t' =>
    match decEq n n', decEqArgs args args', decEqTerm t t' with
    | isTrue h1, isTrue h2, isTrue h3 => isTrue (by rw [h1, h2, h3])
    | isFalse h1, _, _ => isFalse (by intro hh; cases hh; exact h1 rfl)
    | _, isFalse h2, _ => isFalse (by intro hh; cases hh; exact h2 rfl)
    | _, _, isFalse h3 => isFalse (by intro hh; cases hh; exact h3 rfl)
  | .autoTrait n, .autoTrait n' =>
    match decEq n n' with
    | isTrue h => isTrue (by rw [h])
    | isFalse h => isFalse (by intro hh; cases hh; exact h rfl)
  | .trait _ _, .projection _ _ _ | .trait _ _, .autoTrait _
  | .projection _ _ _, .trait _ _ | .projection _ _ _, .autoTrait _
  | .autoTrait _, .trait _ _ | .autoTrait _, .projection _ _ _ =>
    isFalse (by intro hh; exact ExistentialPredicate.noConfusion hh)

def decEqPreds : (a : List ExistentialPredicate) → (b : List ExistentialPredicate) →
    Decidable (a = b)
  | [], [] => isTrue rfl
  | [], _ :: _ => isFalse (by intro hh; exact List.noConfusion hh)
  | _ :: _, [] => isFalse (by intro hh; exact List.noConfusion hh)
  | x :: xs, y :: ys =>
    match decEqPred x y, decEqPreds xs ys with
    | isTrue h1, isTrue h2 => isTrue (by rw [h1, h2])
    | isFalse h1, _ => isFalse (by intro hh; cases hh; exact h1 rfl)
    | _, isFalse h2 => isFalse (by intro hh; cases hh; exact h2 rfl)

def decEqTerm : (a : Term) → (b : Term) → Decidable (a = b)
  | .ty t, .ty t' =>
    match decEqTy t t' with
    | isTrue h => isTrue (by rw [h])
    | isFalse h => isFalse (by intro hh; cases hh; exact h rfl)
  | .const c, .const c' =>
    match decEqConst c c' with
    | isTrue h => isTrue (by rw [h])
    | isFalse h => isFalse (by intro hh; cases hh; exact h rfl)
  | .ty _, .const _ | .const _, .ty _ =>
    isFalse (by intro hh; exact Term.noConfusion hh)

def decEqSig : (a : FnSig) → (b : FnSig) → Decidable (a = b)
  | .mk ins out v ab, .mk ins' out' v' ab' =>
    match decEqTyList ins ins', decEqTy out out', decEq v v', decEq ab ab' with
    | isTrue h1, isTrue h2, isTrue h3, isTrue h4 => isTrue (by rw [h1, h2, h3, h4])
    | isFalse h1, _, _, _ => isFalse (by intro hh; cases hh; exact h1 rfl)
    | _, isFalse h2, _, _ => isFalse (by intro hh; cases hh; exact h2 rfl)
    | _, _, isFalse h3, _ => isFalse (by intro hh; cases hh; exact h3 rfl)
    | _, _, _, isFalse h4 => isFalse (by intro hh; cases hh; exact h4 rfl)

end

instance : DecidableEq Ty := decEqTy

instance : DecidableEq GenericArg := decEqArg

instance : DecidableEq Const := decEqConst

instance : DecidableEq ExistentialPredicate := decEqPred

instance : DecidableEq Term := decEqTerm

instance : DecidableEq FnSig := decEqSig

/-! ### Dictionary, options, encoder state -/

/-- `TyQ`: type and extended type qualifiers. -/
inductive TyQ
  | none | const | mut
deriving DecidableEq

/-- `DictKey`: substitution dictionary key. -/
inductive DictKey
  | ty (t : Ty) (q : TyQ)
  | region (r : Region)
  | const (c : Const)
  | predicate (p : ExistentialPredicate)
deriving DecidableEq

/-- `TypeIdOptions` from `typeid.rs` (a `bitflags` set), as four booleans. -/
structure TypeIdOptions where
  generalizePointers : Bool
  generalizeReprC : Bool
  normalizeIntegers : Bool
  noSelfTypeErasure : Bool
deriving DecidableEq

/-- `TypeIdOptions::empty()`. -/
def TypeIdOptions.empty : TypeIdOptions := ⟨false, false, false, false⟩

/-- `options.insert(GENERALIZE_REPR_C)` (`b = true`) or
`options.remove(GENERALIZE_REPR_C)` (`b = false`). -/
def TypeIdOptions.withReprC (o : TypeIdOptions) (b : Bool) : TypeIdOptions :=
  ⟨o.generalizePointers, b, o.normalizeIntegers, o.noSelfTypeErasure⟩

/-- A diagnostic emitted through `tcx.dcx().struct_span_err(span, …)`; the
model records the span it was reported on. -/
structure Diag where
  span : Nat
deriving DecidableEq

/-- The mutable state threaded through one top-level encoding: the
substitution dictionary (as the insertion-ordered list of its keys — the
stored value of a key is its zero-based insertion position, i.e. its index
in this list) and the diagnostics emitted so far. -/
structure EncState where
  dict : List DictKey
  diags : List Diag
deriving DecidableEq

/-- The empty state a top-level entry point starts from. -/
def EncState.empty : EncState := ⟨[], []⟩

/-- Replace the dictionary. -/
def EncState.withDict (st : EncState) (d : List DictKey) : EncState := ⟨d, st.diags⟩

/-- Record a diagnostic reported on `sp`. -/
def EncState.addDiag (st : EncState) (sp : Nat) : EncState := ⟨st.dict, st.diags ++ [⟨sp⟩]⟩

/-- Index of a key in the dictionary list — the value `dict.get(&key)` returns,
since each key's stored value is its insertion position. -/
def idxOf (k : DictKey) : List DictKey → Nat
  | [] => 0
  | x :: rest => if x = k then 0 else idxOf k rest + 1

/-- `compress` from `itanium_cxx_abi.rs`: if `key` is present, replace the
component with `"S{to_seq_id(value)}_"`; otherwise insert
`key → dict.len()` and leave the component unchanged. -/
def compress (st : EncState) (key : DictKey) (comp : Str) : Str × EncState :=
  if key ∈ st.dict then
    ('S' :: (to_seq_id (idxOf key st.dict) ++ "_".toList), st)
  else
    (comp, st.withDict (st.dict ++ [key]))

/-! ### Characters, bytes and number formatting -/

/-- UTF-8 bytes of a character (what Rust's `str::as_bytes` yields per char). -/
def charUtf8 (c : Char) : List Nat :=
  let n := c.toNat
  if n < 128 then [n]
  else if n < 2048 then [192 + n / 64, 128 + n % 64]
  else if n < 65536 then [224 + n / 4096, 128 + (n / 64) % 64, 128 + n % 64]
  else [240 + n / 262144, 128 + (n / 4096) % 64, 128 + (n / 64) % 64, 128 + n % 64]

/-- UTF-8 byte sequence of a string. -/
def utf8Bytes (s : Str) : List Nat := (s.map charUtf8).flatten

/-- Rust `str::len` — the UTF-8 byte length. -/
def utf8Len (s : Str) : Nat := (utf8Bytes s).length

/-- Decimal digits of a natural number, most significant first (fuel-driven
so that it evaluates by kernel reduction; `natRepr` supplies ample fuel). -/
def natReprAux : Nat → Nat → List Char → List Char
  | 0, _, acc => acc
  | fuel + 1, n, acc =>
    if n < 10 then Char.ofNat (48 + n) :: acc
    else natReprAux fuel (n / 10) (Char.ofNat (48 + n % 10) :: acc)

/-- Rust `{}` formatting of an unsigned integer. -/
def natRepr (n : Nat) : Str := natReprAux (n + 1) n []

/-- Rust `{}` formatting of an `i128`: a `-` sign on negatives, then the
decimal digits of the magnitude. -/
def intRepr (i : Int) : Str :=
  if i < 0 then '-' :: natRepr i.natAbs else natRepr i.natAbs

/-- Rust `str::trim`: strip leading and trailing whitespace. -/
def strTrim (s : Str) : Str :=
  ((s.dropWhile Char.isWhitespace).reverse.dropWhile Char.isWhitespace).reverse

/-- The Itanium builtin type encodings that `encode_ty` refuses to compress. -/
def builtin_types : List Str :=
  ["v".toList, "w".toList, "b".toList, "c".toList, "a".toList, "h".toList,
   "s".toList, "t".toList, "i".toList, "j".toList, "l".toList, "m".toList,
   "x".toList, "y".toList, "n".toList, "o".toList, "f".toList, "d".toList,
   "e".toList, "g".toList, "z".toList, "Dh".toList]

/-- Bit width of a signed integer type (`Integer::from_int_ty(..).size()`);
the model fixes a 64-bit target, so `isize` has width 64. -/
def IntTy.width : IntTy → Nat
  | .i8 => 8
  | .i16 => 16
  | .i32 => 32
  | .i64 => 64
  | .i128 => 128
  | .isize => 64

/-- `Size::sign_extend(bits) as i128`: interpret the low `w` bits as a
two's-complement signed value. -/
def signExtend (w : Nat) (bits : Nat) : Int :=
  let b := bits % 2 ^ w
  if b < 2 ^ (w - 1) then (b : Int) else (b : Int) - 2 ^ w

/-! ### `encode_region` and `encode_ty_name` -/

/-- `encode_region` from `itanium_cxx_abi.rs`: bound regions emit
`u6regionI[<disambiguator>]<var-index>E`; erased and early-param regions emit
bare `u6region`; each is offered to `compress` under `DictKey::Region`. -/
def encode_region (region : Region) (st : EncState) : Str × EncState :=
  match region with
  | .bound debruijn var =>
    let s := "u6regionI".toList
      ++ (if debruijn > 0 then to_disambiguator debruijn else [])
      ++ natRepr var ++ "E".toList
    compress st (.region region) s
  | .earlyParam _ => compress st (.region region) ("u6region".toList)
  | .erased => compress st (.region region) ("u6region".toList)

/-- The rendered name of a disambiguated def-path component. -/
def pathCompName (c : PathComp) : Str := c.nameHead :: c.nameTail

/-- The `[disambiguator]<len>[_]<name>` rendering of one def-path component;
an extra `_` is prepended when the name starts with an ASCII digit or `_`. -/
def pathCompRender (c : PathComp) : Str :=
  (if c.disambiguator > 0 then to_disambiguator c.disambiguator else [])
  ++ natRepr (utf8Len (pathCompName c))
  ++ (if c.nameHead.isDigit || c.nameHead = '_' then ['_'] else [])
  ++ pathCompName c

/-- `encode_ty_name` from `itanium_cxx_abi.rs`: namespace tags for the path
components innermost-first, then `C<crate-disambiguator><len><crate-name>`,
then the disambiguated components root-first. -/
def encode_ty_name (nm : NameData) : Str :=
  (nm.comps.reverse.map (fun c => ['N', c.tag.letter])).flatten
  ++ ('C' :: (to_disambiguator nm.crateId
      ++ natRepr (utf8Len nm.crateName) ++ nm.crateName))
  ++ (nm.comps.map pathCompRender).flatten

/-! ### Size measures for the encoder's termination -/

mutual

/-- Size measure on types justifying the encoder's mutual recursion. -/
@[simp] def tySize : Ty → Nat
  | .bool => 1
  | .char => 1
  | .str => 1
  | .never => 1
  | .int _ => 1
  | .uint _ => 1
  | .float _ => 1
  | .tuple tys => 1 + tysSize tys
  | .array e _ => 1 + tySize e
  | .slice e => 1 + tySize e
  | .adt _ args => 2 + argsSize args
  | .foreign _ => 1
  | .ref _ p _ => 1 + tySize p
  | .rawPtr p _ => 1 + tySize p
  | .fnPtr s => 1 + sigSize s
  | .fnDef _ args => 2 + argsSize args
  | .closure _ args => 2 + argsSize args
  | .coroutineClosure _ args _ => 2 + argsSize args
  | .coroutine _ args _ => 2 + argsSize args
  | .dynamic preds _ _ => 2 + predsSize preds
  | .param => 1

@[simp] def tysSize : List Ty → Nat
  | [] => 0
  | t :: rest => 1 + tySize t + tysSize rest

@[simp] def argSize : GenericArg → Nat
  | .lifetime _ => 1
  | .type t => 1 + tySize t
  | .const c => 1 + constSize c

@[simp] def argsSize : List GenericArg → Nat
  | [] => 0
  | a :: rest => 1 + argSize a + argsSize rest

@[simp] def constSize : Const → Nat
  | .param t => 1 + tySize t
  | .intVal _ _ => 2
  | .uintVal _ _ => 2
  | .boolVal _ => 2

@[simp] def predSize : ExistentialPredicate → Nat
  | .trait _ args => 2 + argsSize args
  | .projection _ args t => 2 + argsSize args + termSize t
  | .autoTrait _ => 1

@[simp] def predsSize : List ExistentialPredicate → Nat
  | [] => 0
  | p :: rest => 1 + predSize p + predsSize rest

@[simp] def termSize : Term → Nat
  | .ty t => 1 + tySize t
  | .const c => 1 + constSize c

@[simp] def sigSize : FnSig → Nat
  | .mk ins out _ _ => 1 + tysSize ins + tySize out

end

theorem one_le_tySize (t : Ty) : 1 ≤ tySize t := by
  cases t <;> simp <;> omega

theorem argsSize_take_le (n : Nat) (args : List GenericArg) :
    argsSize (List.take n args) ≤ argsSize args := by
  induction args generalizing n with
  | nil => simp
  | cons a rest ih =>
    cases n with
    | zero => simp
    | succ m =>
      have h := ih m
      simp only [List.take, argsSize]
      omega

/-! ### The type transformer (component C) -/

/-- The canonical opaque pointer `*const ()` that `GENERALIZE_POINTERS`
collapses every pointer and reference type to. -/
def canonPtr : Ty := .rawPtr (.tuple []) false

mutual

/-- Modelled from the spec: `typeid::ty::transform`, the pre-encoding type
transformer (its source file is not part of the corpus; this definition
follows spec §4.C).  Under `GENERALIZE_POINTERS`, every reference and raw
pointer is collapsed to the canonical opaque pointer `*const ()`, recursively.
Under `NORMALIZE_INTEGERS`, fixed-width signed and unsigned integers map to a
canonical tag of the same width — the identity here — while `char`, `bool`,
`usize`, `isize` are preserved.  `GENERALIZE_REPR_C` and
`NO_SELF_TYPE_ERASURE` do not act in the transformer (the former is handled
inside the encoder, the latter by the instance entry point). -/
def transform (o : TypeIdOptions) : Ty → Ty
  | .tuple tys => .tuple (transformList o tys)
  | .array e n => .array (transform o e) n
  | .slice e => .slice (transform o e)
  | .ref r p m => if o.generalizePointers then canonPtr else .ref r (transform o p) m
  | .rawPtr p m => if o.generalizePointers then canonPtr else .rawPtr (transform o p) m
  | .fnPtr s => .fnPtr (transformSig o s)
  | t => t

/-- Pointwise `transform` on a type list. -/
def transformList (o : TypeIdOptions) : List Ty → List Ty
  | [] => []
  | t :: rest => transform o t :: transformList o rest

/-- `transform` inside a function signature. -/
def transformSig (o : TypeIdOptions) : FnSig → FnSig
  | .mk ins out v ab => .mk (transformList o ins) (transform o out) v ab

end

mutual

theorem tySize_transform_le (o : TypeIdOptions) (t : Ty) :
    tySize (transform o t) ≤ tySize t := by
  cases t with
  | tuple tys =>
    have h := tysSize_transformList_le o tys
    simp [transform]; omega
  | array e n =>
    have h := tySize_transform_le o e
    simp [transform]; omega
  | slice e =>
    have h := tySize_transform_le o e
    simp [transform]; omega
  | ref r p m =>
    have h := tySize_transform_le o p
    have h1 := one_le_tySize p
    by_cases hg : o.generalizePointers <;> simp [transform, hg, canonPtr] <;> omega
  | rawPtr p m =>
    have h := tySize_transform_le o p
    have h1 := one_le_tySize p
    by_cases hg : o.generalizePointers <;> simp [transform, hg, canonPtr] <;> omega
  | fnPtr s =>
    have h := sigSize_transformSig_le o s
    simp [transform]; omega
  | _ => simp [transform]

theorem tysSize_transformList_le (o : TypeIdOptions) (l : List Ty) :
    tysSize (transformList o l) ≤ tysSize l := by
  cases l with
  | nil => simp [transformList]
  | cons t rest =>
    have h1 := tySize_transform_le o t
    have h2 := tysSize_transformList_le o rest
    simp [transformList]; omega

theorem sigSize_transformSig_le (o : TypeIdOptions) (s : FnSig) :
    sigSize (transformSig o s) ≤ sigSize s := by
  cases s with
  | mk ins out v ab =>
    have h1 := tysSize_transformList_le o ins
    have h2 := tySize_transform_le o out
    simp [transformSig]; omega

end

/-! ### The encoder (component D)

The mutual recursion mirrors `encode_ty` / `encode_args` / `encode_const` /
`encode_predicate` / `encode_predicates` / `encode_fnsig` from
`itanium_cxx_abi.rs`; the list walks that the source does with `for` loops are
the `…_go` / plural functions. -/

mutual

/-- `encode_ty` from `itanium_cxx_abi.rs`: encodes a type using the Itanium
C++ ABI with vendor extended type qualifiers and types.  The `&mut String`
output parameter becomes the returned string; the substitution dictionary and
the emitted diagnostics thread through `EncState`. -/
def encode_ty (ty : Ty) (st : EncState) (options : TypeIdOptions) : Str × EncState :=
  match ty with
  | .bool => ("b".toList, st)
  | .int ity =>
    let s : Str :=
      match ity with
      | .i8 => "u2i8".toList
      | .i16 => "u3i16".toList
      | .i32 => "u3i32".toList
      | .i64 => "u3i64".toList
      | .i128 => "u4i128".toList
      | .isize => "u5isize".toList
    compress st (.ty ty .none) s
  | .uint uty =>
    let s : Str :=
      match uty with
      | .u8 => "u2u8".toList
      | .u16 => "u3u16".toList
      | .u32 => "u3u32".toList
      | .u64 => "u3u64".toList
      | .u128 => "u4u128".toList
      | .usize => "u5usize".toList
    compress st (.ty ty .none) s
  | .float fty =>
    ((match fty with
      | .f16 => "Dh".toList
      | .f32 => "f".toList
      | .f64 => "d".toList
      | .f128 => "g".toList), st)
  | .char => compress st (.ty ty .none) ("u4char".toList)
  | .str => compress st (.ty ty .none) ("u3str".toList)
  | .never => compress st (.ty ty .none) ("u5never".toList)
  | .tuple [] => ("v".toList, st)
  -- `_ if ty.is_unit()`: the empty tuple emits `v` with no compression
  | .tuple (t :: rest) =>
    let (inner, st1) := encode_tys (t :: rest) st options
    compress st1 (.ty ty .none) ("u5tupleI".toList ++ inner ++ "E".toList)
  | .array e len =>
    let (inner, st1) := encode_ty e st options
    compress st1 (.ty ty .none) ('A' :: (natRepr len ++ inner))
  | .slice e =>
    let (inner, st1) := encode_ty e st options
    compress st1 (.ty ty .none) ("u5sliceI".toList ++ inner ++ "E".toList)
  | .adt adtDef args =>
    match adtDef.cfiEncoding with
    | some attr =>
      -- user-defined CFI encoding for the type
      let t := strTrim attr.value
      if t ≠ [] then
        if t ∈ builtin_types then (t, st)
        else compress st (.ty ty .none) t
      else
        -- empty trimmed value: report a diagnostic on the attribute's span;
        -- the (empty) component is pushed as-is, with no fallback encoding
        ([], st.addDiag attr.span)
    | none =>
      if options.generalizeReprC && adtDef.reprC then
        -- `repr(C)` ADT under `GENERALIZE_REPR_C`: `<len><unscoped-name>`
        let name := adtDef.itemName
        compress st (.ty ty .none) (natRepr (utf8Len name) ++ name)
      else
        let name := encode_ty_name adtDef.name
        let (a, st1) := encode_args args st options
        compress st1 (.ty ty .none) ('u' :: (natRepr (utf8Len name) ++ name ++ a))
  | .foreign fDef =>
    match fDef.cfiEncoding with
    | some attr =>
      let t := strTrim attr.value
      if t ≠ [] then compress st (.ty ty .none) t
      else
        -- diagnostic on the attribute's span; the foreign arm still offers
        -- the (empty) component to `compress` after the `if let`
        compress (st.addDiag attr.span) (.ty ty .none) []
    | none =>
      let name := fDef.itemName
      compress st (.ty ty .none) (natRepr (utf8Len name) ++ name)
  | .fnDef nm args =>
    let name := encode_ty_name nm
    let (a, st1) := encode_args args st options
    compress st1 (.ty ty .none) ('u' :: (natRepr (utf8Len name) ++ name ++ a))
  | .closure nm args =>
    let name := encode_ty_name nm
    let (a, st1) := encode_args args st options
    compress st1 (.ty ty .none) ('u' :: (natRepr (utf8Len name) ++ name ++ a))
  | .coroutineClosure nm args nparent =>
    let name := encode_ty_name nm
    let (a, st1) := encode_args (args.take nparent) st options
    compress st1 (.ty ty .none) ('u' :: (natRepr (utf8Len name) ++ name ++ a))
  | .coroutine nm args nparent =>
    let name := encode_ty_name nm
    let (a, st1) := encode_args (args.take nparent) st options
    compress st1 (.ty ty .none) ('u' :: (natRepr (utf8Len name) ++ name ++ a))
  | .ref region pointee mutbl =>
    let (inner, st1) := encode_ty pointee st options
    let s := "u3refI".toList ++ inner ++ "E".toList
    let (s1, st2) := compress st1 (.ty (.ref region pointee false) .none) s
    if mutbl then compress st2 (.ty ty .mut) ("U3mut".toList ++ s1)
    else (s1, st2)
  | .rawPtr pointee mutbl =>
    let (s0, st1) := encode_ty pointee st options
    if mutbl then compress st1 (.ty ty .none) ('P' :: s0)
    else
      let (s1, st2) := compress st1 (.ty pointee .const) ('K' :: s0)
      compress st2 (.ty ty .none) ('P' :: s1)
  | .fnPtr sig =>
    let (f, st1) := encode_fnsig sig st TypeIdOptions.empty
    compress st1 (.ty ty .none) ('P' :: f)
  | .dynamic preds region kind =>
    let (ps, st1) := encode_predicates preds st options
    let (rg, st2) := encode_region region st1
    let pre : Str :=
      match kind with
      | .dyn => "u3dynI".toList
      | .dynStar => "u7dynstarI".toList
    compress st2 (.ty ty .none) (pre ++ ps ++ rg ++ "E".toList)
  | .param => compress st (.ty ty .none) ("u5param".toList)
termination_by tySize ty
decreasing_by
  all_goals first
    | decreasing_tactic
    | (simp_wf
       have h := argsSize_take_le nparent args
       omega)

/-- The walk over the element types of a tuple. -/
def encode_tys (tys : List Ty) (st : EncState) (options : TypeIdOptions) :
    Str × EncState :=
  match tys with
  | [] => ([], st)
  | t :: rest =>
    let (s, st1) := encode_ty t st options
    let (s2, st2) := encode_tys rest st1 options
    (s ++ s2, st2)
termination_by tysSize tys

/-- `encode_args` from `itanium_cxx_abi.rs`: the empty list yields the empty
string; a non-empty list yields `I<subst1..substN>E`. -/
def encode_args (args : List GenericArg) (st : EncState) (options : TypeIdOptions) :
    Str × EncState :=
  match args with
  | [] => ([], st)
  | a :: rest =>
    let (s, st1) := encode_args_go (a :: rest) st options
    ('I' :: (s ++ "E".toList), st1)
termination_by 1 + argsSize args

/-- The walk over a generic-argument list. -/
def encode_args_go (args : List GenericArg) (st : EncState) (options : TypeIdOptions) :
    Str × EncState :=
  match args with
  | [] => ([], st)
  | .lifetime r :: rest =>
    let (s, st1) := encode_region r st
    let (s2, st2) := encode_args_go rest st1 options
    (s ++ s2, st2)
  | .type t :: rest =>
    let (s, st1) := encode_ty t st options
    let (s2, st2) := encode_args_go rest st1 options
    (s ++ s2, st2)
  | .const c :: rest =>
    let (s, st1) := encode_const c st options
    let (s2, st2) := encode_args_go rest st1 options
    (s ++ s2, st2)
termination_by argsSize args

/-- `encode_const` from `itanium_cxx_abi.rs`: `L<element-type>[n][<element-value>]E`
as literal argument, offered to `compress` under `DictKey::Const`.
For a const parameter only the element type is emitted.  For a concrete value
the element type is followed by the value: signed integers are sign-extended
to `i128`, an `n` is pushed when negative, and the value is written with
Rust `{}` formatting (which for an `i128` includes a `-` sign, and for a
`bool` prints `true`/`false`). -/
def encode_const (c : Const) (st : EncState) (options : TypeIdOptions) :
    Str × EncState :=
  let (body, st1) :=
    match c with
    | .param ty => encode_ty ty st options
    | .intVal ity bits =>
      let (t, st1) := encode_ty (.int ity) st options
      let val := signExtend ity.width bits
      (t ++ (if val < 0 then "n".toList else []) ++ intRepr val, st1)
    | .uintVal uty bits =>
      let (t, st1) := encode_ty (.uint uty) st options
      (t ++ natRepr bits, st1)
    | .boolVal b =>
      let (t, st1) := encode_ty .bool st options
      (t ++ (if b then "true".toList else "false".toList), st1)
  compress st1 (.const c) ('L' :: (body ++ "E".toList))
termination_by constSize c

/-- `encode_predicate` from `itanium_cxx_abi.rs`. -/
def encode_predicate (p : ExistentialPredicate) (st : EncState)
    (options : TypeIdOptions) : Str × EncState :=
  let (s, st1) :=
    match p with
    | .trait nm args =>
      let name := encode_ty_name nm
      let (a, st1) := encode_args args st options
      ('u' :: (natRepr (utf8Len name) ++ name ++ a), st1)
    | .projection nm args term =>
      let name := encode_ty_name nm
      let (a, st1) := encode_args args st options
      match term with
      | .ty t =>
        let (ts, st2) := encode_ty t st1 options
        ('u' :: (natRepr (utf8Len name) ++ name ++ a ++ ts), st2)
      | .const c =>
        let (cs, st2) := encode_const c st1 options
        ('u' :: (natRepr (utf8Len name) ++ name ++ a ++ cs), st2)
    | .autoTrait nm =>
      let name := encode_ty_name nm
      ('u' :: (natRepr (utf8Len name) ++ name), st)
  compress st1 (.predicate p) s
termination_by predSize p

/-- `encode_predicates` from `itanium_cxx_abi.rs`: predicates in order. -/
def encode_predicates (ps : List ExistentialPredicate) (st : EncState)
    (options : TypeIdOptions) : Str × EncState :=
  match ps with
  | [] => ([], st)
  | p :: rest =>
    let (s, st1) := encode_predicate p st options
    let (s2, st2) := encode_predicates rest st1 options
    (s ++ s2, st2)
termination_by predsSize ps

/-- `encode_fnsig` from `itanium_cxx_abi.rs`: an `F..E` pair; the
`GENERALIZE_REPR_C` option is inserted when the signature's ABI is `C` and
removed otherwise; each participating type is rewritten by the transformer
first; an empty parameter list emits `v` unless c-variadic, and a c-variadic
signature's parameters end with `z`. -/
def encode_fnsig (sig : FnSig) (st : EncState) (options : TypeIdOptions) :
    Str × EncState :=
  match sig with
  | .mk inputs output cVariadic abi =>
    let opts :=
      match abi with
      | .c _ => options.withReprC true
      | _ => options.withReprC false
    let (ret, st1) := encode_ty (transform opts output) st opts
    let (ps, st2) :=
      match inputs with
      | [] => ((if cVariadic then "z".toList else "v".toList), st1)
      | t :: rest =>
        let (s, stx) := encode_fnsig_inputs (t :: rest) st1 opts
        (s ++ (if cVariadic then "z".toList else []), stx)
    ('F' :: (ret ++ ps ++ "E".toList), st2)
termination_by sigSize sig
decreasing_by
  all_goals first
    | decreasing_tactic
    | (simp_wf
       refine lt_of_le_of_lt (tySize_transform_le _ _) ?_
       omega)

/-- The walk over a signature's parameter types, transforming each before
encoding it. -/
def encode_fnsig_inputs (tys : List Ty) (st : EncState) (options : TypeIdOptions) :
    Str × EncState :=
  match tys with
  | [] => ([], st)
  | t :: rest =>
    let (s, st1) := encode_ty (transform options t) st options
    let (s2, st2) := encode_fnsig_inputs rest st1 options
    (s ++ s2, st2)
termination_by tysSize tys
decreasing_by
  all_goals first
    | decreasing_tactic
    | (simp_wf
       refine lt_of_le_of_lt (tySize_transform_le _ _) ?_
       omega)

end

/-! ### Driver entry points (component E) -/

/-- `rustc_target::abi::call::PassMode`, restricted to what
`typeid_for_fnabi` distinguishes: `Ignore` versus everything else. -/
inductive PassMode
  | ignore | direct | indirect
deriving DecidableEq

/-- One argument of a `FnAbi`: its layout-bearing type (`arg.layout.ty`) and
its pass mode. -/
structure ArgAbi where
  ty : Ty
  mode : PassMode
deriving DecidableEq

/-- `FnAbi`: calling convention, arguments, return argument, c-variadic flag
and fixed count of a variadic prefix. -/
structure FnAbi where
  conv : Conv
  args : List ArgAbi
  ret : ArgAbi
  cVariadic : Bool
  fixedCount : Nat
deriving DecidableEq

/-- The walk over a `FnAbi`'s argument list: arguments whose pass mode is
`Ignore` are skipped, every other argument is transformed and encoded. -/
def encode_abi_args (args : List ArgAbi) (st : EncState) (options : TypeIdOptions) :
    Str × EncState :=
  match args with
  | [] => ([], st)
  | a :: rest =>
    if a.mode = PassMode.ignore then encode_abi_args rest st options
    else
      let (s, st1) := encode_ty (transform options a.ty) st options
      let (s2, st2) := encode_abi_args rest st1 options
      (s ++ s2, st2)

/-- The `GENERALIZE_REPR_C` override `typeid_for_fnabi` applies from the
calling convention before encoding (source lines 759–762). -/
def typeid_for_fnabi_opts (fn_abi : FnAbi) (options : TypeIdOptions) : TypeIdOptions :=
  match fn_abi.conv with
  | .c => options.withReprC true
  | _ => options.withReprC false

/-- The part of `typeid_for_fnabi` up to and including the closing `E`:
`_ZTSF`, a fresh dictionary, the transformed return type, the transformed
non-`Ignore` arguments (`v` when none were pushed; the first `fixed_count`
arguments followed by `z` when c-variadic), `E` — under the
already-overridden options. -/
def typeid_for_fnabi_core (fn_abi : FnAbi) (opts : TypeIdOptions) : Str :=
  let (ret, st1) := encode_ty (transform opts fn_abi.ret.ty) EncState.empty opts
  let argsStr :=
    if !fn_abi.cVariadic then
      let (s, _) := encode_abi_args fn_abi.args st1 opts
      if fn_abi.args.all (fun a => a.mode = PassMode.ignore) then "v".toList else s
    else
      let (s, _) := encode_abi_args (fn_abi.args.take fn_abi.fixedCount) st1 opts
      s ++ "z".toList
  "_ZTS".toList ++ ('F' :: (ret ++ argsStr ++ "E".toList))

/-- `typeid_for_fnabi` from `itanium_cxx_abi.rs`: the convention-driven
`GENERALIZE_REPR_C` override, the `_ZTSF…E` core, then the `.normalized`
suffix if `NORMALIZE_INTEGERS` and the `.generalized` suffix if
`GENERALIZE_POINTERS`, in that order. -/
def typeid_for_fnabi (fn_abi : FnAbi) (options : TypeIdOptions) : Str :=
  let opts := typeid_for_fnabi_opts fn_abi options
  let core := typeid_for_fnabi_core fn_abi opts
  let t1 := if opts.normalizeIntegers then core ++ ".normalized".toList else core
  if opts.generalizePointers then t1 ++ ".generalized".toList else t1

/-! ### xxHash64 and the KCFI entry point

`kcfi_typeid_for_fnabi` hashes the textual identifier with the external
`twox_hash` crate's `XxHash64` (seeded by `Default`, i.e. 0) and truncates
`as u32`.  The crate is not part of the corpus; the hasher is modelled from
the public xxHash64 algorithm: four lane accumulators over 32-byte stripes,
a merge, the total length, an 8/4/1-byte tail, and a final avalanche, all in
arithmetic modulo `2^64`. -/

def xxPrime1 : Nat := 11400714785074694791

def xxPrime2 : Nat := 14029467366897019727

def xxPrime3 : Nat := 1609587929392839161

def xxPrime4 : Nat := 9650029242287828579

def xxPrime5 : Nat := 2870177450012600261

/-- `2^64`. -/
def M64 : Nat := 18446744073709551616

/-- Wrapping 64-bit addition. -/
def add64 (a b : Nat) : Nat := (a + b) % M64

/-- Wrapping 64-bit multiplication. -/
def mul64 (a b : Nat) : Nat := (a * b) % M64

/-- 64-bit left rotation. -/
def rotl64 (x r : Nat) : Nat := ((x % M64) * 2 ^ r + (x % M64) / 2 ^ (64 - r)) % M64

/-- Logical right shift. -/
def shr64 (x r : Nat) : Nat := x / 2 ^ r

/-- Little-endian 64-bit lane from eight bytes. -/
def le64 (b0 b1 b2 b3 b4 b5 b6 b7 : Nat) : Nat :=
  b0 + 256 * (b1 + 256 * (b2 + 256 * (b3 + 256 * (b4 + 256 * (b5 + 256 * (b6 + 256 * b7))))))

/-- Little-endian 32-bit lane from four bytes. -/
def le32 (b0 b1 b2 b3 : Nat) : Nat := b0 + 256 * (b1 + 256 * (b2 + 256 * b3))

/-- The xxHash64 round function. -/
def xxRound (acc lane : Nat) : Nat :=
  mul64 (rotl64 (add64 acc (mul64 lane xxPrime2)) 31) xxPrime1

/-- The xxHash64 merge-round function. -/
def xxMergeRound (h v : Nat) : Nat :=
  add64 (mul64 (h ^^^ xxRound 0 v) xxPrime1) xxPrime4

/-- The xxHash64 final avalanche. -/
def xxAvalanche (h0 : Nat) : Nat :=
  let h1 := h0 ^^^ shr64 h0 33
  let h2 := mul64 h1 xxPrime2
  let h3 := h2 ^^^ shr64 h2 29
  let h4 := mul64 h3 xxPrime3
  h4 ^^^ shr64 h4 32

/-- Consume 32-byte stripes, updating the four accumulators; returns the
accumulators and the remaining (fewer than 32) bytes. -/
def xxStripes : Nat → Nat → Nat → Nat → List Nat → Nat × Nat × Nat × Nat × List Nat
  | v1, v2, v3, v4,
    b0 :: b1 :: b2 :: b3 :: b4 :: b5 :: b6 :: b7 ::
    c0 :: c1 :: c2 :: c3 :: c4 :: c5 :: c6 :: c7 ::
    d0 :: d1 :: d2 :: d3 :: d4 :: d5 :: d6 :: d7 ::
    e0 :: e1 :: e2 :: e3 :: e4 :: e5 :: e6 :: e7 :: rest =>
    xxStripes (xxRound v1 (le64 b0 b1 b2 b3 b4 b5 b6 b7))
      (xxRound v2 (le64 c0 c1 c2 c3 c4 c5 c6 c7))
      (xxRound v3 (le64 d0 d1 d2 d3 d4 d5 d6 d7))
      (xxRound v4 (le64 e0 e1 e2 e3 e4 e5 e6 e7)) rest
  | v1, v2, v3, v4, rest => (v1, v2, v3, v4, rest)

/-- Consume 8-byte chunks of the tail. -/
def xxTail8 : Nat → List Nat → Nat × List Nat
  | h, b0 :: b1 :: b2 :: b3 :: b4 :: b5 :: b6 :: b7 :: rest =>
    xxTail8
      (add64 (mul64 (rotl64 (h ^^^ xxRound 0 (le64 b0 b1 b2 b3 b4 b5 b6 b7)) 27) xxPrime1)
        xxPrime4)
      rest
  | h, rest => (h, rest)

/-- Consume one 4-byte chunk of the tail, if present. -/
def xxTail4 : Nat → List Nat → Nat × List Nat
  | h, b0 :: b1 :: b2 :: b3 :: rest =>
    (add64 (mul64 (rotl64 (h ^^^ mul64 (le32 b0 b1 b2 b3) xxPrime1) 23) xxPrime2) xxPrime3,
     rest)
  | h, rest => (h, rest)

/-- Consume the remaining single bytes of the tail. -/
def xxTail1 : Nat → List Nat → Nat
  | h, b :: rest => xxTail1 (mul64 (rotl64 (h ^^^ mul64 b xxPrime5) 11) xxPrime1) rest
  | h, [] => h

/-- The tail and avalanche shared by `finish` and the one-shot hash. -/
def xxFinishTail (h : Nat) (rest : List Nat) : Nat :=
  match xxTail8 h rest with
  | (h1, r1) =>
    match xxTail4 h1 r1 with
    | (h2, r2) => xxAvalanche (xxTail1 h2 r2)

/-- Modelled from the spec: the streaming `XxHash64` hasher state of the
external `twox_hash` crate, which `kcfi_typeid_for_fnabi` drives through
`Default::default()` / `Hasher::write` / `Hasher::finish`. -/
structure XxHash64 where
  seed : Nat
  totalLen : Nat
  v1 : Nat
  v2 : Nat
  v3 : Nat
  v4 : Nat
  buffer : List Nat

/-- `XxHash64::with_seed`. -/
def XxHash64.withSeed (seed : Nat) : XxHash64 :=
  ⟨seed, 0, add64 (add64 seed xxPrime1) xxPrime2, add64 seed xxPrime2, seed % M64,
   (seed + (M64 - xxPrime1 % M64)) % M64, []⟩

/-- `Default::default()` for `XxHash64`: seed 0. -/
def XxHash64.default : XxHash64 := XxHash64.withSeed 0

/-- `Hasher::write`: consume whole 32-byte stripes of the buffered plus new
bytes, keep the remainder buffered, and count the total length. -/
def XxHash64.write (st : XxHash64) (bytes : List Nat) : XxHash64 :=
  match xxStripes st.v1 st.v2 st.v3 st.v4 (st.buffer ++ bytes) with
  | (v1, v2, v3, v4, rest) => ⟨st.seed, st.totalLen + bytes.length, v1, v2, v3, v4, rest⟩

/-- `Hasher::finish`: merge the accumulators (or start from `seed + P5` when
fewer than 32 bytes were written), add the total length, consume the buffered
tail, avalanche. -/
def XxHash64.finish (st : XxHash64) : Nat :=
  let h0 :=
    if st.totalLen ≥ 32 then
      xxMergeRound
        (xxMergeRound
          (xxMergeRound
            (xxMergeRound
              (add64 (add64 (add64 (rotl64 st.v1 1) (rotl64 st.v2 7)) (rotl64 st.v3 12))
                (rotl64 st.v4 18))
              st.v1)
            st.v2)
          st.v3)
        st.v4
    else add64 st.seed xxPrime5
  xxFinishTail (add64 h0 st.totalLen) st.buffer

/-- One-shot xxHash64 of a byte sequence with the given seed (the reference
algorithm, written directly over the whole input). -/
def xxh64 (seed : Nat) (input : List Nat) : Nat :=
  match xxStripes (add64 (add64 seed xxPrime1) xxPrime2) (add64 seed xxPrime2) (seed % M64)
      ((seed + (M64 - xxPrime1 % M64)) % M64) input with
  | (v1, v2, v3, v4, rest) =>
    let h0 :=
      if input.length ≥ 32 then
        xxMergeRound
          (xxMergeRound
            (xxMergeRound
              (xxMergeRound
                (add64 (add64 (add64 (rotl64 v1 1) (rotl64 v2 7)) (rotl64 v3 12))
                  (rotl64 v4 18))
                v1)
              v2)
            v3)
          v4
      else add64 seed xxPrime5
    xxFinishTail (add64 h0 input.length) rest

/-- `kcfi_typeid_for_fnabi` from `typeid.rs`: hash the UTF-8 bytes of the
textual identifier with a default-seeded `XxHash64`, truncate `as u32`. -/
def kcfi_typeid_for_fnabi (fn_abi : FnAbi) (options : TypeIdOptions) : Nat :=
  (XxHash64.default.write (utf8Bytes (typeid_for_fnabi fn_abi options))).finish % 2 ^ 32

/-! ### Thin-self-ptr (component F, `rewrite_receiver.rs`) -/

/-- Modelled from the spec: the shape of a receiver type as
`force_thin_self_ptr` observes it through its layout — raw pointers,
references, aggregates with a field list in which each field is tagged with
whether it is a 1-ZST (the classification `non_1zst_field` uses), and
primitive field-less leaves.  Every representable receiver is sized (the
source asserts `!receiver_layout.is_unsized()`; unsized receivers are outside
the model). -/
inductive RecvTy
  | rawPtr (pointee : RecvTy) (mutbl : Bool)
  | ref (pointee : RecvTy) (mutbl : Bool)
  | adt (fields : List (RecvTy × Bool))
  | prim

/-- The types of the fields that are not 1-ZSTs. -/
def non1zsts : List (RecvTy × Bool) → List RecvTy
  | [] => []
  | (t, is1zst) :: rest => if is1zst then non1zsts rest else t :: non1zsts rest

/-- `ty.is_unsafe_ptr() || ty.is_ref()` — the loop's exit condition. -/
def RecvTy.isPtrOrRef : RecvTy → Bool
  | .rawPtr _ _ => true
  | .ref _ _ => true
  | .adt _ => false
  | .prim => false

theorem sizeOf_lt_of_mem_non1zsts {t : RecvTy} :
    ∀ {fields : List (RecvTy × Bool)}, t ∈ non1zsts fields → sizeOf t < sizeOf fields := by
  intro fields h
  induction fields with
  | nil => simp [non1zsts] at h
  | cons f rest ih =>
    match f with
    | (t', b) =>
      by_cases hb : b = true
      · rw [non1zsts, if_pos hb] at h
        have := ih h
        simp
        omega
      · rw [non1zsts, if_neg hb] at h
        rcases List.mem_cons.mp h with h1 | h2
        · subst h1
          simp
          omega
        · have := ih h2
          simp
          omega

/-- `force_thin_self_ptr` from `rewrite_receiver.rs`: while the current type
is neither a raw pointer nor a reference, replace it with its unique
non-1-ZST field (`non_1zst_field`, modelled from the spec as the sole element
of `non1zsts` when there is exactly one); the `expect` on a missing or
non-unique field is `none`. -/
def force_thin_self_ptr (ty : RecvTy) : Option RecvTy :=
  match ty with
  | .rawPtr p m => some (.rawPtr p m)
  | .ref p m => some (.ref p m)
  | .adt fields =>
    match h : non1zsts fields with
    | [f] => force_thin_self_ptr f
    | _ => none
  | .prim => none
termination_by sizeOf ty
decreasing_by
  rename_i fields
  have hf : f ∈ non1zsts fields := by rw [h]; exact List.mem_singleton.mpr rfl
  have hlt := sizeOf_lt_of_mem_non1zsts hf
  simp_wf
  omega

/-! ### Base-36 numeral semantics (support for C1) -/

/-- Value of an uppercase base-36 digit (`0-9`, `A-Z`). -/
def digitVal36 (c : Char) : Nat :=
  if c.toNat ≤ 57 then c.toNat - 48 else c.toNat - 55

/-- Numeric value of an uppercase base-36 numeral, most significant digit
first. -/
def ofBase36 (s : Str) : Nat := s.foldl (fun acc c => 36 * acc + digitVal36 c) 0

theorem digitVal36_toUpper_baseNDigit :
    ∀ d : Nat, d < 36 → digitVal36 (Char.toUpper (baseNDigit d)) = d := by decide

theorem class_toUpper_baseNDigit :
    ∀ d : Nat, d < 36 →
      ((Char.toUpper (baseNDigit d)).isDigit ∨ (Char.toUpper (baseNDigit d)).isUpper) := by
  decide

theorem baseNAux36_append (fuel : Nat) : ∀ n acc, n < fuel →
    baseNAux 36 fuel n acc = baseNAux 36 fuel n [] ++ acc := by
  induction fuel with
  | zero => intro n acc h; omega
  | succ fuel ih =>
    intro n acc h
    by_cases h36 : n < 36
    · simp [baseNAux, h36]
    · have hlt : n / 36 < fuel := by
        have := Nat.div_lt_self (show 0 < n by omega) (show 1 < 36 by omega)
        omega
      simp only [baseNAux, if_neg h36]
      rw [ih (n / 36) _ hlt, ih (n / 36) (baseNDigit (n % 36) :: []) hlt]
      simp

theorem ofBase36_baseNAux (fuel : Nat) : ∀ n, n < fuel →
    ofBase36 ((baseNAux 36 fuel n []).map Char.toUpper) = n := by
  induction fuel with
  | zero => omega
  | succ fuel ih =>
    intro n h
    by_cases h36 : n < 36
    · simp only [baseNAux, if_pos h36]
      simp [ofBase36, digitVal36_toUpper_baseNDigit n h36]
    · have hlt : n / 36 < fuel := by
        have := Nat.div_lt_self (show 0 < n by omega) (show 1 < 36 by omega)
        omega
      simp only [baseNAux, if_neg h36]
      rw [baseNAux36_append fuel (n / 36) _ hlt]
      have hih := ih (n / 36) hlt
      simp only [ofBase36, List.map_append, List.foldl_append] at hih ⊢
      rw [hih]
      simp [digitVal36_toUpper_baseNDigit (n % 36) (by omega)]
      omega

theorem mem_baseNAux36 (fuel : Nat) : ∀ n acc c, c ∈ baseNAux 36 fuel n acc →
    c ∈ acc ∨ ∃ d, d < 36 ∧ c = baseNDigit d := by
  induction fuel with
  | zero => intro n acc c h; simp only [baseNAux] at h; exact Or.inl h
  | succ fuel ih =>
    intro n acc c h
    by_cases h36 : n < 36
    · simp only [baseNAux, if_pos h36] at h
      rcases List.mem_cons.mp h with h1 | h2
      · exact Or.inr ⟨n, h36, h1⟩
      · exact Or.inl h2
    · simp only [baseNAux, if_neg h36] at h
      rcases ih (n / 36) (baseNDigit (n % 36) :: acc) c h with h1 | h2
      · rcases List.mem_cons.mp h1 with h3 | h4
        · exact Or.inr ⟨n % 36, by omega, h3⟩
        · exact Or.inl h4
      · exact Or.inr h2

theorem to_seq_id_chars (n : Nat) : ∀ c ∈ to_seq_id n, c.isDigit ∨ c.isUpper := by
  cases n with
  | zero => simp [to_seq_id]
  | succ m =>
    intro c hc
    simp only [to_seq_id, baseN, List.mem_map] at hc
    obtain ⟨c', hc', rfl⟩ := hc
    rcases mem_baseNAux36 (m + 1) m [] c' hc' with h1 | ⟨d, hd, rfl⟩
    · simp at h1
    · exact class_toUpper_baseNDigit d hd

theorem ofBase36_to_seq_id (n : Nat) : ofBase36 (to_seq_id (n + 1)) = n := by
  simp only [to_seq_id, baseN]
  exact ofBase36_baseNAux (n + 1) n (by omega)

theorem idxOf_append_self (key : DictKey) :
    ∀ dict : List DictKey, key ∉ dict → idxOf key (dict ++ [key]) = dict.length := by
  intro dict h
  induction dict with
  | nil => simp [idxOf]
  | cons x rest ih =>
    have hx : ¬ x = key := fun hxk => h (by simp [hxk])
    have hrest : key ∉ rest := fun hk => h (by simp [hk])
    simp [idxOf, hx, ih hrest]

/-! ### Claim C1 -/

/-- C1: `compress(dict, key, buf)` — when `key` is already present with value
`i` (its zero-based insertion index), the buffer is replaced entirely by
`"S" ++ seq_id(i) ++ "_"`; when absent, `key` is inserted (the present branch
never inserts, and insertion preserves dictionary distinctness, so at most
once per encoding) with value `dict.len()`, its zero-based insertion
position, and the buffer is unchanged.  `seq_id 0` is
empty — index 0 yields `"S_"` — and `seq_id (n+1)` is the uppercase base-36
rendering of `n`, certified here by its numeral value and character classes. -/
theorem c1_compress_spec (dict : List DictKey) (diags : List Diag) (key : DictKey)
    (buf : Str) :
    (key ∈ dict →
      compress ⟨dict, diags⟩ key buf
        = ('S' :: (to_seq_id (idxOf key dict) ++ "_".toList), ⟨dict, diags⟩)) ∧
    (key ∉ dict →
      compress ⟨dict, diags⟩ key buf = (buf, ⟨dict ++ [key], diags⟩) ∧
      idxOf key (dict ++ [key]) = dict.length) ∧
    (dict.Nodup → (compress ⟨dict, diags⟩ key buf).2.dict.Nodup) ∧
    to_seq_id 0 = [] ∧
    (∀ n : Nat, ofBase36 (to_seq_id (n + 1)) = n) ∧
    (∀ n : Nat, ∀ c ∈ to_seq_id n, c.isDigit ∨ c.isUpper) := by
  refine ⟨?_, ?_, ?_, rfl, ofBase36_to_seq_id, to_seq_id_chars⟩
  · intro h
    simp [compress, h]
  · intro h
    exact ⟨by simp [compress, h, EncState.withDict], idxOf_append_self key dict h⟩
  · intro hnd
    by_cases h : key ∈ dict
    · simpa [compress, h] using hnd
    · simp only [compress, h, if_neg, ite_false, EncState.withDict]
      simp [List.nodup_append, hnd, h]

theorem c1_compress_spec_witness :
    compress ⟨[], []⟩ (DictKey.region Region.erased) ("x".toList)
      = ("x".toList, ⟨[DictKey.region Region.erased], []⟩) ∧
    compress ⟨[DictKey.region Region.erased], []⟩ (DictKey.region Region.erased) ("x".toList)
      = ("S_".toList, ⟨[DictKey.region Region.erased], []⟩) := by
  refine ⟨((c1_compress_spec [] [] (DictKey.region Region.erased) ("x".toList)).2.1
    (by simp)).1, ?_⟩
  have h := (c1_compress_spec [DictKey.region Region.erased] [] (DictKey.region Region.erased)
    ("x".toList)).1 (by simp)
  simpa [idxOf, to_seq_id] using h

/-! ### Claim C2 -/

/-- C2: the `GENERALIZE_REPR_C` option is forced by the calling convention
for the duration of the signature: for a `Conv::C` fn-abi the identifier is
byte-identical to the one produced with the flag inserted in the caller's
options, and for any other convention it is byte-identical to the one
produced with the flag removed. -/
theorem c2_reprc_forced (fa : FnAbi) (o : TypeIdOptions) :
    (fa.conv = Conv.c →
      typeid_for_fnabi fa o = typeid_for_fnabi fa (o.withReprC true)) ∧
    (fa.conv ≠ Conv.c →
      typeid_for_fnabi fa o = typeid_for_fnabi fa (o.withReprC false)) := by
  obtain ⟨conv, args, ret, v, fc⟩ := fa
  constructor
  · intro h
    simp only at h
    subst h
    simp [typeid_for_fnabi, typeid_for_fnabi_opts, TypeIdOptions.withReprC]
  · intro h
    cases conv with
    | c => exact absurd rfl h
    | rust => simp [typeid_for_fnabi, typeid_for_fnabi_opts, TypeIdOptions.withReprC]
    | rustCold => simp [typeid_for_fnabi, typeid_for_fnabi_opts, TypeIdOptions.withReprC]

theorem c2_reprc_forced_witness :
    typeid_for_fnabi ⟨Conv.c, [], ⟨Ty.bool, PassMode.direct⟩, false, 0⟩ TypeIdOptions.empty
      = typeid_for_fnabi ⟨Conv.c, [], ⟨Ty.bool, PassMode.direct⟩, false, 0⟩
          (TypeIdOptions.empty.withReprC true) ∧
    typeid_for_fnabi ⟨Conv.rust, [], ⟨Ty.bool, PassMode.direct⟩, false, 0⟩ TypeIdOptions.empty
      = typeid_for_fnabi ⟨Conv.rust, [], ⟨Ty.bool, PassMode.direct⟩, false, 0⟩
          (TypeIdOptions.empty.withReprC false) :=
  ⟨(c2_reprc_forced ⟨Conv.c, [], ⟨Ty.bool, PassMode.direct⟩, false, 0⟩
      TypeIdOptions.empty).1 rfl,
   (c2_reprc_forced ⟨Conv.rust, [], ⟨Ty.bool, PassMode.direct⟩, false, 0⟩
      TypeIdOptions.empty).2 (by simp)⟩

/-! ### Claim C10 -/

/-- C10: for an erased or early-param region, `encode_region` emits the bare
token `u6region` and enters the region into the substitution dictionary under
its `Region` key (when it was absent), so that a later occurrence of the same
region — the key being present — is emitted as the back-reference
`S<seq-id>_` instead of `u6region`. -/
theorem c10_region_compressed (r : Region) (i : Nat) (st : EncState)
    (hr : r = Region.erased ∨ r = Region.earlyParam i) :
    (DictKey.region r ∉ st.dict →
      encode_region r st = ("u6region".toList, ⟨st.dict ++ [DictKey.region r], st.diags⟩)) ∧
    (DictKey.region r ∈ st.dict →
      encode_region r st
        = ('S' :: (to_seq_id (idxOf (DictKey.region r) st.dict) ++ "_".toList), st)) := by
  rcases hr with rfl | rfl <;>
    exact ⟨fun h => by simp [encode_region, compress, h, EncState.withDict],
           fun h => by simp [encode_region, compress, h]⟩

theorem c10_region_compressed_witness :
    encode_region Region.erased EncState.empty
      = ("u6region".toList, ⟨[DictKey.region Region.erased], []⟩) ∧
    encode_region Region.erased ⟨[DictKey.region Region.erased], []⟩
      = ("S_".toList, ⟨[DictKey.region Region.erased], []⟩) := by
  have h1 := (c10_region_compressed Region.erased 0 EncState.empty (Or.inl rfl)).1
    (by simp [EncState.empty])
  have h2 := (c10_region_compressed Region.erased 0 ⟨[DictKey.region Region.erased], []⟩
    (Or.inl rfl)).2 (by simp)
  refine ⟨by simpa [EncState.empty] using h1, by simpa [idxOf, to_seq_id] using h2⟩

/-! ### The spec's concrete scenarios 1–3 -/

/-- `fn()` encodes as `_ZTSFvvE`. -/
theorem typeid_scenario_fn_void :
    typeid_for_fnabi ⟨Conv.rust, [], ⟨Ty.tuple [], PassMode.direct⟩, false, 0⟩
      TypeIdOptions.empty = "_ZTSFvvE".toList := by
  simp [typeid_for_fnabi, typeid_for_fnabi_opts, typeid_for_fnabi_core,
    TypeIdOptions.withReprC, TypeIdOptions.empty, transform, transformList, encode_ty,
    encode_abi_args, EncState.empty]

/-- `fn(i32) -> i32` with `conv = Rust` encodes as `_ZTSFu3i32S_E`: the
return type takes slot 0 and the argument back-references it as `S_`. -/
theorem typeid_scenario_fn_i32 :
    typeid_for_fnabi
      ⟨Conv.rust, [⟨Ty.int IntTy.i32, PassMode.direct⟩], ⟨Ty.int IntTy.i32, PassMode.direct⟩,
        false, 0⟩
      TypeIdOptions.empty = "_ZTSFu3i32S_E".toList := by
  simp [typeid_for_fnabi, typeid_for_fnabi_opts, typeid_for_fnabi_core,
    TypeIdOptions.withReprC, TypeIdOptions.empty, transform, transformList, encode_ty,
    encode_abi_args, compress, idxOf, to_seq_id, EncState.empty, EncState.withDict]

/-- `fn(i32, i32) -> i32` encodes as `_ZTSFu3i32S_S_E`. -/
theorem typeid_scenario_fn_i32_i32 :
    typeid_for_fnabi
      ⟨Conv.rust, [⟨Ty.int IntTy.i32, PassMode.direct⟩, ⟨Ty.int IntTy.i32, PassMode.direct⟩],
        ⟨Ty.int IntTy.i32, PassMode.direct⟩, false, 0⟩
      TypeIdOptions.empty = "_ZTSFu3i32S_S_E".toList := by
  simp [typeid_for_fnabi, typeid_for_fnabi_opts, typeid_for_fnabi_core,
    TypeIdOptions.withReprC, TypeIdOptions.empty, transform, transformList, encode_ty,
    encode_abi_args, compress, idxOf, to_seq_id, EncState.empty, EncState.withDict]

/-! ### Suffix helpers (support for C7) -/

theorem getLast_of_suffix {l₁ l₂ : Str} (hs : l₁ <:+ l₂) (hne : l₁ ≠ []) :
    l₂.getLast? = l₁.getLast? := by
  obtain ⟨p, rfl⟩ := hs
  exact List.getLast?_append_of_ne_nil p hne

theorem not_suffix_of_getLast {l₁ l₂ : Str} (h : l₂.getLast? ≠ l₁.getLast?)
    (hne : l₁ ≠ []) : ¬ l₁ <:+ l₂ :=
  fun hs => h (getLast_of_suffix hs hne)

theorem suffix_of_suffix_le {l₁ l₂ l₃ : Str} (h1 : l₁ <:+ l₃) (h2 : l₂ <:+ l₃)
    (h : l₁.length ≤ l₂.length) : l₁ <:+ l₂ := by
  rw [← List.reverse_prefix] at h1 h2 ⊢
  exact List.prefix_of_prefix_length_le h1 h2 (by simpa using h)

theorem typeid_core_shape (fa : FnAbi) (opts : TypeIdOptions) :
    ∃ c0 : Str, typeid_for_fnabi_core fa opts = c0 ++ ['E'] := by
  unfold typeid_for_fnabi_core
  rcases hE : encode_ty (transform opts fa.ret.ty) EncState.empty opts with ⟨ret, st1⟩
  cases hv : fa.cVariadic with
  | true =>
    rcases hA : encode_abi_args (fa.args.take fa.fixedCount) st1 opts with ⟨s, st2⟩
    refine ⟨"_ZTS".toList ++ 'F' :: (ret ++ (s ++ "z".toList)), ?_⟩
    simp [hE, hv, hA]
  | false =>
    rcases hA : encode_abi_args fa.args st1 opts with ⟨s, st2⟩
    cases hall : fa.args.all (fun a => a.mode = PassMode.ignore) with
    | true =>
      refine ⟨"_ZTS".toList ++ 'F' :: (ret ++ "v".toList), ?_⟩
      simp [hE, hv, hA, hall]
    | false =>
      refine ⟨"_ZTS".toList ++ 'F' :: (ret ++ s), ?_⟩
      simp [hE, hv, hA, hall]

theorem typeid_opts_normalize (fa : FnAbi) (o : TypeIdOptions) :
    (typeid_for_fnabi_opts fa o).normalizeIntegers = o.normalizeIntegers := by
  obtain ⟨conv, args, ret, v, fc⟩ := fa
  cases conv <;> rfl

theorem typeid_opts_generalize (fa : FnAbi) (o : TypeIdOptions) :
    (typeid_for_fnabi_opts fa o).generalizePointers = o.generalizePointers := by
  obtain ⟨conv, args, ret, v, fc⟩ := fa
  cases conv <;> rfl

theorem typeid_structure (fa : FnAbi) (o : TypeIdOptions) :
    ∃ c0 : Str,
      typeid_for_fnabi fa o =
        (c0 ++ ['E'])
        ++ ((if o.normalizeIntegers then ".normalized".toList else [])
            ++ (if o.generalizePointers then ".generalized".toList else [])) := by
  obtain ⟨c0, hc⟩ := typeid_core_shape fa (typeid_for_fnabi_opts fa o)
  refine ⟨c0, ?_⟩
  simp only [typeid_for_fnabi]
  rw [hc, typeid_opts_normalize, typeid_opts_generalize]
  cases hn : o.normalizeIntegers <;> cases hg : o.generalizePointers <;> simp

/-! ### Claim C7 (corrected) -/

/-- C7 counterexample: with both `NORMALIZE_INTEGERS` and
`GENERALIZE_POINTERS` set, the result does NOT end with `".normalized"` (it
ends with `".normalized.generalized"`), refuting the claim's
"ends with `.normalized` if and only if `NORMALIZE_INTEGERS` is set" at the
concrete trivial fn-abi. -/
theorem c7_counterexample :
    (⟨true, false, true, false⟩ : TypeIdOptions).normalizeIntegers = true ∧
    ¬ (".normalized".toList <:+
        typeid_for_fnabi ⟨Conv.rust, [], ⟨Ty.tuple [], PassMode.direct⟩, false, 0⟩
          ⟨true, false, true, false⟩) := by
  constructor
  · rfl
  · have heval : typeid_for_fnabi ⟨Conv.rust, [], ⟨Ty.tuple [], PassMode.direct⟩, false, 0⟩
        ⟨true, false, true, false⟩ = "_ZTSFvvE.normalized.generalized".toList := by
      simp [typeid_for_fnabi, typeid_for_fnabi_opts, typeid_for_fnabi_core,
        TypeIdOptions.withReprC, transform, transformList, encode_ty, encode_abi_args,
        EncState.empty]
    rw [heval]
    decide

/-- C7 amended: the result ends with `".generalized"` iff
`GENERALIZE_POINTERS` is set; when `GENERALIZE_POINTERS` is clear, it ends
with `".normalized"` iff `NORMALIZE_INTEGERS` is set; and when both options
are set, the result ends with `".normalized.generalized"`, in that order. -/
theorem c7_suffixes (fa : FnAbi) (o : TypeIdOptions) :
    ((".generalized".toList <:+ typeid_for_fnabi fa o) ↔ o.generalizePointers = true) ∧
    (o.generalizePointers = false →
      ((".normalized".toList <:+ typeid_for_fnabi fa o) ↔ o.normalizeIntegers = true)) ∧
    (o.normalizeIntegers = true → o.generalizePointers = true →
      ".normalized.generalized".toList <:+ typeid_for_fnabi fa o) := by
  obtain ⟨c0, hc⟩ := typeid_structure fa o
  rw [hc]
  cases hn : o.normalizeIntegers <;> cases hg : o.generalizePointers <;>
    simp only [hn, hg, if_pos, if_neg, Bool.false_eq_true, Bool.true_eq_false, ite_true,
      ite_false, cond_true, cond_false, List.append_nil, List.nil_append]
  · -- ni = false, gp = false
    refine ⟨?_, ?_, ?_⟩
    · simp only [iff_false, Bool.false_eq_true]
      exact fun h => absurd h
        (not_suffix_of_getLast (by simp [List.getLast?_concat]) (by decide))
    · intro _
      simp only [iff_false, Bool.false_eq_true]
      exact fun h => absurd h
        (not_suffix_of_getLast (by simp [List.getLast?_concat]) (by decide))
    · intro h
      exact absurd h (by decide)
  · -- ni = false, gp = true
    refine ⟨?_, ?_, ?_⟩
    · simp only [iff_true]
      exact List.suffix_append _ _
    · intro h
      exact absurd h (by decide)
    · intro h
      exact absurd h (by decide)
  · -- ni = true, gp = false
    refine ⟨?_, ?_, ?_⟩
    · simp only [iff_false, Bool.false_eq_true]
      intro h
      have h2 : ".normalized".toList <:+ (c0 ++ ['E']) ++ ".normalized".toList :=
        List.suffix_append _ _
      have h3 := suffix_of_suffix_le h2 h (by decide)
      exact absurd h3 (by decide)
    · intro _
      simp only [iff_true]
      exact List.suffix_append _ _
    · intro _ h
      exact absurd h (by decide)
  · -- ni = true, gp = true
    refine ⟨?_, ?_, ?_⟩
    · simp only [iff_true]
      exact (List.suffix_append _ _).trans (List.suffix_append _ _)
    · intro h
      exact absurd h (by decide)
    · intro _ _
      have hng : ".normalized.generalized".toList
          = ".normalized".toList ++ ".generalized".toList := by decide
      rw [hng]
      exact List.suffix_append _ _

theorem c7_suffixes_witness :
    (".generalized".toList <:+
      typeid_for_fnabi ⟨Conv.rust, [], ⟨Ty.tuple [], PassMode.direct⟩, false, 0⟩
        ⟨true, false, false, false⟩) ∧
    ¬ (".normalized".toList <:+
      typeid_for_fnabi ⟨Conv.rust, [], ⟨Ty.tuple [], PassMode.direct⟩, false, 0⟩
        ⟨false, false, false, false⟩) := by
  constructor
  · exact (c7_suffixes ⟨Conv.rust, [], ⟨Ty.tuple [], PassMode.direct⟩, false, 0⟩
      ⟨true, false, false, false⟩).1.mpr rfl
  · intro h
    have := ((c7_suffixes ⟨Conv.rust, [], ⟨Ty.tuple [], PassMode.direct⟩, false, 0⟩
      ⟨false, false, false, false⟩).2.1 rfl).mp h
    exact absurd this (by decide)

/-! ### Claim C8 -/

theorem xxh64_default_write_finish (bytes : List Nat) :
    (XxHash64.default.write bytes).finish = xxh64 0 bytes := by
  simp only [XxHash64.default, XxHash64.withSeed, XxHash64.write, XxHash64.finish, xxh64,
    List.nil_append, Nat.zero_add]

/-- The hash model reproduces the xxHash64 reference test vector for the
empty input at seed 0. -/
theorem xxh64_vector_empty : xxh64 0 [] = 0xEF46DB3751D8E999 := by decide

/-- The hash model reproduces the xxHash64 reference test vector for `"abc"`
at seed 0. -/
theorem xxh64_vector_abc : xxh64 0 (utf8Bytes ("abc".toList)) = 0x44BC2CF5AD770999 := by
  decide

/-- The hash model reproduces the xxHash64 reference test vector for a
36-byte input (exercising the 32-byte stripe path) at seed 0. -/
theorem xxh64_vector_long :
    xxh64 0 (utf8Bytes ("abcdefghijklmnopqrstuvwxyz0123456789".toList))
      = 0x64F23ECF1609B766 := by decide

/-- C8: `kcfi_typeid_for_fnabi` equals the low 32 bits (truncation `as u32`,
i.e. reduction mod `2^32`) of the one-shot xxHash64, at seed 0, of the UTF-8
bytes of the string `typeid_for_fnabi` returns on the same input. -/
theorem c8_kcfi_hash (fa : FnAbi) (o : TypeIdOptions) :
    kcfi_typeid_for_fnabi fa o
      = xxh64 0 (utf8Bytes (typeid_for_fnabi fa o)) % 2 ^ 32 := by
  unfold kcfi_typeid_for_fnabi
  rw [xxh64_default_write_finish]

/-! ### Claim C3 (code bug) -/

/-- C3, evaluated at the failing inputs: for `i128::MIN` (raw bits `2^127`)
the code emits value part `n-170141183460469231731687303715884105728` — the
`n` prefix is present (the sign-extended value is negative) but the `{val}`
write keeps the `-` sign of the `i128`, so the value part is not the bare
decimal magnitude `n170…728` the claim states; likewise an `i8` const with
bits `0xFF` (value `-1`) renders as `Lu2i8n-1E`, not `Lu2i8n1E`. -/
theorem c3_signed_const_minus_sign :
    (encode_const (Const.intVal IntTy.i128 (2 ^ 127)) EncState.empty TypeIdOptions.empty).1
      = "Lu4i128n-170141183460469231731687303715884105728E".toList ∧
    (encode_const (Const.intVal IntTy.i128 (2 ^ 127)) EncState.empty TypeIdOptions.empty).1
      ≠ "Lu4i128n170141183460469231731687303715884105728E".toList ∧
    (encode_const (Const.intVal IntTy.i8 255) EncState.empty TypeIdOptions.empty).1
      = "Lu2i8n-1E".toList ∧
    (encode_const (Const.intVal IntTy.i8 1) EncState.empty TypeIdOptions.empty).1
      = "Lu2i81E".toList := by
  have h128 : (encode_const (Const.intVal IntTy.i128 (2 ^ 127)) EncState.empty
      TypeIdOptions.empty).1
      = "Lu4i128n-170141183460469231731687303715884105728E".toList := by
    simp [encode_const, encode_ty, compress, EncState.empty, signExtend, IntTy.width, intRepr]
    all_goals decide
  have h8 : (encode_const (Const.intVal IntTy.i8 255) EncState.empty TypeIdOptions.empty).1
      = "Lu2i8n-1E".toList := by
    simp [encode_const, encode_ty, compress, EncState.empty, signExtend, IntTy.width, intRepr]
    all_goals decide
  have h1 : (encode_const (Const.intVal IntTy.i8 1) EncState.empty TypeIdOptions.empty).1
      = "Lu2i81E".toList := by
    simp [encode_const, encode_ty, compress, EncState.empty, signExtend, IntTy.width, intRepr]
    all_goals decide
  refine ⟨h128, ?_, h8, h1⟩
  rw [h128]
  decide

/-! ### Claim C4 (code bug) -/

/-- C4, evaluated at the failing inputs: a concrete `bool` const value is
written with Rust `{}` formatting of the `bool`, producing `LbfalseE` /
`LbtrueE` — not the `0`/`1` characters that the claim (and the comment in
`encode_const` itself) state. -/
theorem c4_bool_const_text :
    (encode_const (Const.boolVal false) EncState.empty TypeIdOptions.empty).1
      = "LbfalseE".toList ∧
    (encode_const (Const.boolVal true) EncState.empty TypeIdOptions.empty).1
      = "LbtrueE".toList ∧
    (encode_const (Const.boolVal false) EncState.empty TypeIdOptions.empty).1
      ≠ "Lb0E".toList := by
  have hf : (encode_const (Const.boolVal false) EncState.empty TypeIdOptions.empty).1
      = "LbfalseE".toList := by
    simp [encode_const, encode_ty, compress, EncState.empty]
  have ht : (encode_const (Const.boolVal true) EncState.empty TypeIdOptions.empty).1
      = "LbtrueE".toList := by
    simp [encode_const, encode_ty, compress, EncState.empty]
  refine ⟨hf, ht, ?_⟩
  rw [hf]
  decide

/-! ### Claim C5 (corrected) -/

/-- Concrete path data for a one-component ADT named `S` in crate `c`. -/
def c5Name : NameData := ⟨0, "c".toList, [⟨DefTag.typeNs, 0, 'S', []⟩]⟩

/-- The ADT `S` carrying `#[cfi_encoding = "  "]` (trims to empty). -/
def c5AdtWithAttr : AdtData := ⟨c5Name, "S".toList, some ⟨7, "  ".toList⟩, false⟩

/-- The same ADT without the attribute. -/
def c5AdtPlain : AdtData := ⟨c5Name, "S".toList, none, false⟩

/-- C5 counterexample: an ADT whose `cfi_encoding` value trims to empty
encodes to the empty string (after the diagnostic), while the same ADT
without the attribute gets its default encoding `u9NtCs_1c1S` — the encoder
does not fall through to the default path, so the claim's "producing the
same encoding for that type as if the attribute were absent" fails. -/
theorem c5_counterexample :
    (encode_ty (Ty.adt c5AdtWithAttr []) EncState.empty TypeIdOptions.empty).1 = [] ∧
    (encode_ty (Ty.adt c5AdtWithAttr []) EncState.empty TypeIdOptions.empty).2.diags
      = [⟨7⟩] ∧
    (encode_ty (Ty.adt c5AdtPlain []) EncState.empty TypeIdOptions.empty).1
      = "u9NtCs_1c1S".toList ∧
    (encode_ty (Ty.adt c5AdtWithAttr []) EncState.empty TypeIdOptions.empty).1
      ≠ (encode_ty (Ty.adt c5AdtPlain []) EncState.empty TypeIdOptions.empty).1 := by
  have ha : encode_ty (Ty.adt c5AdtWithAttr []) EncState.empty TypeIdOptions.empty
      = ([], ⟨[], [⟨7⟩]⟩) := by
    simp [encode_ty, c5AdtWithAttr, strTrim, EncState.empty, EncState.addDiag,
      TypeIdOptions.empty]
  have hp : (encode_ty (Ty.adt c5AdtPlain []) EncState.empty TypeIdOptions.empty).1
      = "u9NtCs_1c1S".toList := by
    simp [encode_ty, c5AdtPlain, c5Name, encode_ty_name, encode_args, compress,
      EncState.empty, TypeIdOptions.empty, pathCompRender, pathCompName, utf8Len,
      utf8Bytes, charUtf8, to_disambiguator, natRepr, natReprAux, DefTag.letter]
  refine ⟨by rw [ha], by rw [ha], hp, ?_⟩
  rw [ha, hp]
  decide

/-- C5 amended: for an ADT or foreign item whose `cfi_encoding` attribute
value trims to the empty string, the encoder reports a diagnostic on the
attribute's span and then continues with the *empty* component for that type
— the ADT arm skips compression entirely, the foreign arm still offers the
empty component to the dictionary — rather than falling through to the
default encoding path. -/
theorem c5_empty_attr_diag (d : AdtData) (f : ForeignData) (args : List GenericArg)
    (st : EncState) (o : TypeIdOptions) (attr attr2 : CfiAttr)
    (hd : d.cfiEncoding = some attr) (hdt : strTrim attr.value = [])
    (hf : f.cfiEncoding = some attr2) (hft : strTrim attr2.value = [])
    (hkey : DictKey.ty (Ty.foreign f) TyQ.none ∉ st.dict) :
    encode_ty (Ty.adt d args) st o = ([], ⟨st.dict, st.diags ++ [⟨attr.span⟩]⟩) ∧
    encode_ty (Ty.foreign f) st o
      = ([], ⟨st.dict ++ [DictKey.ty (Ty.foreign f) TyQ.none],
              st.diags ++ [⟨attr2.span⟩]⟩) := by
  constructor
  · simp [encode_ty, hd, hdt, EncState.addDiag]
  · simp [encode_ty, hf, hft, compress, EncState.addDiag, EncState.withDict, hkey]

theorem c5_empty_attr_diag_witness :
    encode_ty (Ty.adt c5AdtWithAttr []) EncState.empty TypeIdOptions.empty
      = ([], ⟨[], [⟨7⟩]⟩) ∧
    encode_ty (Ty.foreign ⟨"F".toList, some ⟨9, " ".toList⟩⟩) EncState.empty
        TypeIdOptions.empty
      = ([], ⟨[DictKey.ty (Ty.foreign ⟨"F".toList, some ⟨9, " ".toList⟩⟩) TyQ.none],
              [⟨9⟩]⟩) := by
  have h := c5_empty_attr_diag c5AdtWithAttr ⟨"F".toList, some ⟨9, " ".toList⟩⟩ []
    EncState.empty TypeIdOptions.empty ⟨7, "  ".toList⟩ ⟨9, " ".toList⟩
    rfl (by decide) rfl (by decide) (by simp [EncState.empty])
  simpa [EncState.empty] using h

/-! ### Claim C6 -/

/-- C6: encoding `&T` builds the inner expansion `u3refI<enc T>E` and takes
one dictionary slot for it, keyed by the immutable reference type with
qualifier `None`; encoding `&mut T` takes that same inner slot and then a
second slot, keyed by the mutable reference type with qualifier `Mut`, for
the `U3mut`-wrapped form; the two keys are distinct, so `&T` and `&mut T`
compress distinctly while sharing the inner `u3refI…E` slot. -/
theorem c6_ref_slots (r : Region) (T : Ty) (st : EncState) (o : TypeIdOptions)
    (h1 : DictKey.ty (Ty.ref r T false) TyQ.none ∉ (encode_ty T st o).2.dict)
    (h2 : DictKey.ty (Ty.ref r T true) TyQ.mut ∉ (encode_ty T st o).2.dict) :
    encode_ty (Ty.ref r T false) st o
      = ("u3refI".toList ++ (encode_ty T st o).1 ++ "E".toList,
         ⟨(encode_ty T st o).2.dict ++ [DictKey.ty (Ty.ref r T false) TyQ.none],
          (encode_ty T st o).2.diags⟩) ∧
    encode_ty (Ty.ref r T true) st o
      = ("U3mut".toList ++ ("u3refI".toList ++ (encode_ty T st o).1 ++ "E".toList),
         ⟨(encode_ty T st o).2.dict ++ [DictKey.ty (Ty.ref r T false) TyQ.none,
            DictKey.ty (Ty.ref r T true) TyQ.mut],
          (encode_ty T st o).2.diags⟩) ∧
    DictKey.ty (Ty.ref r T false) TyQ.none ≠ DictKey.ty (Ty.ref r T true) TyQ.mut := by
  rcases hE : encode_ty T st o with ⟨inner, st1⟩
  rw [hE] at h1 h2
  have hne : DictKey.ty (Ty.ref r T true) TyQ.mut
      ∉ st1.dict ++ [DictKey.ty (Ty.ref r T false) TyQ.none] := by
    intro hm
    rcases List.mem_append.mp hm with hm1 | hm2
    · exact h2 hm1
    · simp at hm2
  refine ⟨?_, ?_, by simp⟩
  · simp [encode_ty, hE, compress, h1, EncState.withDict]
  · simp [encode_ty, hE, compress, h1, hne, EncState.withDict]

theorem c6_ref_slots_witness :
    encode_ty (Ty.ref Region.erased Ty.bool false) EncState.empty TypeIdOptions.empty
      = ("u3refIbE".toList,
         ⟨[DictKey.ty (Ty.ref Region.erased Ty.bool false) TyQ.none], []⟩) ∧
    encode_ty (Ty.ref Region.erased Ty.bool true) EncState.empty TypeIdOptions.empty
      = ("U3mutu3refIbE".toList,
         ⟨[DictKey.ty (Ty.ref Region.erased Ty.bool false) TyQ.none,
           DictKey.ty (Ty.ref Region.erased Ty.bool true) TyQ.mut], []⟩) := by
  have hb : encode_ty Ty.bool EncState.empty TypeIdOptions.empty
      = ("b".toList, EncState.empty) := by
    simp [encode_ty]
  have h := c6_ref_slots Region.erased Ty.bool EncState.empty TypeIdOptions.empty
    (by rw [hb]; simp [EncState.empty]) (by rw [hb]; simp [EncState.empty])
  rw [hb] at h
  refine ⟨?_, ?_⟩
  · have := h.1
    simpa [EncState.empty] using this
  · have := h.2.1
    simpa [EncState.empty] using this

/-! ### Claim C9 -/

/-- One unwrapping step of `force_thin_self_ptr`: a non-pointer aggregate is
replaced by its unique non-1-ZST field. -/
inductive UnwrapStep : RecvTy → RecvTy → Prop
  | step (fields : List (RecvTy × Bool)) (f : RecvTy) :
      non1zsts fields = [f] → UnwrapStep (.adt fields) f

/-- C9: whenever `force_thin_self_ptr` returns a type (the layout walk found
a unique non-1-ZST field at every step), the result is reached from the input
by repeatedly replacing the current type with its unique non-1-ZST field
while it is neither a raw pointer nor a reference; the result is always a raw
pointer or a reference; and an input that is already a raw pointer or a
reference is returned unchanged. -/
theorem c9_force_thin_self_ptr (t r : RecvTy) (h : force_thin_self_ptr t = some r) :
    Relation.ReflTransGen UnwrapStep t r ∧ r.isPtrOrRef = true ∧
    (t.isPtrOrRef = true → r = t) := by
  match t with
  | .rawPtr p m =>
    rw [force_thin_self_ptr] at h
    cases h
    exact ⟨Relation.ReflTransGen.refl, rfl, fun _ => rfl⟩
  | .ref p m =>
    rw [force_thin_self_ptr] at h
    cases h
    exact ⟨Relation.ReflTransGen.refl, rfl, fun _ => rfl⟩
  | .prim =>
    rw [force_thin_self_ptr] at h
    cases h
  | .adt fields =>
    rw [force_thin_self_ptr] at h
    split at h
    · rename_i f hnz
      have ih := c9_force_thin_self_ptr f r h
      refine ⟨Relation.ReflTransGen.head (UnwrapStep.step fields f hnz) ih.1, ih.2.1, ?_⟩
      intro hpr
      simp [RecvTy.isPtrOrRef] at hpr
    · cases h
termination_by sizeOf t
decreasing_by
  rename_i f h1x h2x heq
  clear h1x h2x
  have hf : f ∈ non1zsts fields := by rw [heq]; exact List.mem_singleton.mpr rfl
  have hlt := sizeOf_lt_of_mem_non1zsts hf
  simp
  omega

theorem c9_force_thin_self_ptr_witness :
    Relation.ReflTransGen UnwrapStep
      (RecvTy.adt [(RecvTy.prim, true), (RecvTy.rawPtr RecvTy.prim false, false)])
      (RecvTy.rawPtr RecvTy.prim false) ∧
    (RecvTy.rawPtr RecvTy.prim false).isPtrOrRef = true ∧
    ((RecvTy.adt [(RecvTy.prim, true),
        (RecvTy.rawPtr RecvTy.prim false, false)]).isPtrOrRef = true →
      RecvTy.rawPtr RecvTy.prim false
        = RecvTy.adt [(RecvTy.prim, true), (RecvTy.rawPtr RecvTy.prim false, false)]) :=
  c9_force_thin_self_ptr
    (RecvTy.adt [(RecvTy.prim, true), (RecvTy.rawPtr RecvTy.prim false, false)])
    (RecvTy.rawPtr RecvTy.prim false)
    (by simp [force_thin_self_ptr, non1zsts])

end Cfi
